import Mathlib

/-!
Shallow embedding of the Markdown-to-Anki-deck parser of the Md2Anki
repository (`src/src/md2anki/md_parser.py`) together with the parts of
`src/src/md2anki/anki_deck.py` that the parser's claims depend on
(tag extraction from deck descriptions and the Markdown re-emitter
`md_merge_anki_decks_to_file`).

Strings are modelled as `List Char` (`Str` below).  A Markdown document is
modelled as the list of its lines, each line *without* its trailing newline
character; the parser re-appends the `'\n'` wherever the Python code
accumulates the raw line (Python's file iteration yields lines with their
trailing newline).  Since every final output string is passed through
`str.strip()`, the fact that the very last line of a Python file may lack a
trailing newline is not observable in the parser's output.

The Python identifier generators (`create_unique_id_int`, backed by
`random.getrandbits`, and `create_unique_id`, backed by `uuid4`) draw from a
hidden global generator state.  They are modelled as functions that consume an
explicitly threaded generator counter and return the next value.
-/

namespace Md2Anki

/-- Strings of the embedded program are lists of characters. -/
abbrev Str := List Char

/-- Helper to write embedded strings as Lean string literals. -/
def strL (s : String) : Str := s.toList

/-- Python `\s` / `str.strip` whitespace on the ASCII range:
space, tab, newline, carriage return, vertical tab, form feed. -/
def pyIsSpace (c : Char) : Bool :=
  c = ' ' ∨ c = '\t' ∨ c = '\n' ∨ c = '\r' ∨ c = '\x0b' ∨ c = '\x0c'

/-- Python `str.lstrip()`. -/
def pyLstrip (l : Str) : Str := l.dropWhile pyIsSpace

/-- Python `str.rstrip()`. -/
def pyRstrip (l : Str) : Str := (l.reverse.dropWhile pyIsSpace).reverse

/-- Python `str.strip()`. -/
def pyStrip (l : Str) : Str := pyRstrip (pyLstrip l)

/-- Tests whether `pat` is an initial segment of `l`
(Python `str.startswith`). -/
def startsWithList : Str → Str → Bool
  | [], _ => true
  | _ :: _, [] => false
  | p :: ps, c :: cs => p = c && startsWithList ps cs

/-- Python `str.replace(old, new, 1)`: replace the leftmost occurrence of
`old` (with Python's convention that an empty `old` matches at position 0). -/
def replaceFirstAux (old new : Str) : Str → Str
  | [] => []
  | c :: rest =>
    if startsWithList old (c :: rest) then new ++ (c :: rest).drop old.length
    else c :: replaceFirstAux old new rest

/-- Python `s.replace(old, new, 1)`. -/
def replaceFirst (s old new : Str) : Str :=
  if old = [] then new ++ s else replaceFirstAux old new s

/-- Converts a run of decimal digit characters to the number they denote
(Python `int(...)` on the digits matched by `(\d+)`). -/
def digitsToNat (l : Str) : Nat :=
  l.foldl (fun acc c => acc * 10 + (c.toNat - 48)) 0

/-- Tests whether every character of `l` is whitespace (this is what the
trailing `\s*$` of the heading regexes accepts once the name group stops). -/
def allWS (l : Str) : Bool := l.all pyIsSpace

/-- Matcher for the optional id tail `\s+\((\d+)\)\s*$` of
`REGEX_MD_ANKI_DECK_HEADING` (`md_parser.py` line 15): at least one
whitespace character, an opening parenthesis, one or more digits, a closing
parenthesis, then only whitespace.  Returns the numeric id on a match. -/
def idTailDeck (l : Str) : Option Nat :=
  if (l.takeWhile pyIsSpace).length = 0 then none
  else
    match l.dropWhile pyIsSpace with
    | '(' :: r2 =>
      let ds := r2.takeWhile Char.isDigit
      let r3 := r2.dropWhile Char.isDigit
      if ds = [] then none
      else
        match r3 with
        | ')' :: r4 => if allWS r4 then some (digitsToNat ds) else none
        | _ => none
    | _ => none

/-- Matcher for the optional id tail `\s+\(([^()\s]+?)\)\s*$` of
`REGEX_MD_ANKI_NOTE_QUESTION_HEADING` (`md_parser.py` line 21): like
`idTailDeck` but the id is one or more characters that are neither
parentheses nor whitespace, returned as a string. -/
def idTailNote (l : Str) : Option Str :=
  if (l.takeWhile pyIsSpace).length = 0 then none
  else
    match l.dropWhile pyIsSpace with
    | '(' :: r2 =>
      let ok : Char → Bool := fun c => ¬(c = '(' ∨ c = ')' ∨ pyIsSpace c)
      let ds := r2.takeWhile ok
      let r3 := r2.dropWhile ok
      if ds = [] then none
      else
        match r3 with
        | ')' :: r4 => if allWS r4 then some ds else none
        | _ => none
    | _ => none

/-- Scans the text after the heading markers and the mandatory whitespace for
the lazy name group `(.+?)` followed by the optional id group and `\s*$`.
The backtracking regex engine takes the shortest nonempty name prefix whose
remaining tail is either an id tail (preferred, the optional group is greedy)
or all whitespace; because an id tail never is all whitespace the two cases
are mutually exclusive and the scan below reproduces the engine's answer.
`idt` abstracts over the two id tail shapes. -/
def nameScan {α : Type} (idt : Str → Option α) : Str → Str → (Str × Option α)
  | acc, [] => (acc.reverse, none)
  | acc, c :: rest =>
    if allWS rest then ((c :: acc).reverse, none)
    else
      match idt rest with
      | some i => ((c :: acc).reverse, some i)
      | none => nameScan idt (c :: acc) rest

/-- Result of matching `REGEX_MD_ANKI_DECK_HEADING`
(`^(#+)\s+(.+?)(?:\s+\((\d+)\))?\s*$`) against one line: heading depth
(group 1 length), heading text (group 2) and optional numeric id (group 3).
When the whole line is heading markers followed only by whitespace, the lazy
name group still has to take one character, which the engine steals from the
end of the whitespace run — hence the single-whitespace-character name in the
`[]` case below. -/
def matchDeckHeadingLine (line : Str) : Option (Nat × Str × Option Nat) :=
  let depth := (line.takeWhile (fun c => c = '#')).length
  let rest := line.dropWhile (fun c => c = '#')
  let m := (rest.takeWhile pyIsSpace).length
  let c := rest.dropWhile pyIsSpace
  if depth = 0 ∨ m = 0 then none
  else
    match c with
    | [] =>
      if 2 ≤ m then (rest.getLast?).map (fun w => (depth, [w], none)) else none
    | _ :: _ =>
      let (name, ido) := nameScan idTailDeck [] c
      some (depth, name, ido)

/-- Result of matching `REGEX_MD_ANKI_NOTE_QUESTION_HEADING`
(`^(##+)\s+(.+?)(?:\s+\(([^()\s]+?)\))?\s*$`): like `matchDeckHeadingLine`
but the marker run must have length at least two and the optional id is an
arbitrary parenthesis-and-whitespace-free string. -/
def matchNoteHeadingLine (line : Str) : Option (Nat × Str × Option Str) :=
  let depth := (line.takeWhile (fun c => c = '#')).length
  let rest := line.dropWhile (fun c => c = '#')
  let m := (rest.takeWhile pyIsSpace).length
  let c := rest.dropWhile pyIsSpace
  if depth < 2 ∨ m = 0 then none
  else
    match c with
    | [] =>
      if 2 ≤ m then (rest.getLast?).map (fun w => (depth, [w], none)) else none
    | _ :: _ =>
      let (name, ido) := nameScan idTailNote [] c
      some (depth, name, ido)

/-- Opening delimiter of the Markdown tag notation recognised by
`REGEX_MD_TAG` in `anki_deck.py` (the backtick and brace are written via
their code points to keep them out of the Lean source text). -/
def tagOpenToken : Str := [Char.ofNat 96, Char.ofNat 123, '=', ':']

/-- Closing delimiter of the Markdown tag notation. -/
def tagCloseToken : Str := [':', '=', Char.ofNat 125, Char.ofNat 96]

/-- Lazy search for the closing delimiter of a tag occurrence: returns the
shortest newline-free prefix that is followed by the closing token, together
with the text after that token.  This is the `(.*?)` group of
`REGEX_MD_TAG` (`.` does not match a newline). -/
def findCloseLazy : Str → Option (Str × Str)
  | [] => none
  | c :: rest =>
    if startsWithList tagCloseToken (c :: rest) then some ([], (c :: rest).drop 4)
    else if c = '\n' then none
    else (findCloseLazy rest).map (fun p => (c :: p.1, p.2))

/-- Worker for `scanTags`: structural recursion on a fuel argument so that
the scan reduces by kernel computation.  Every recursive call strictly
shrinks the scanned string, so any fuel at least the string's length gives
the fuel-free semantics. -/
def scanTagsAux : Nat → Str → List Str
  | 0, _ => []
  | _, [] => []
  | fuel + 1, c :: rest =>
    if startsWithList tagOpenToken (c :: rest) then
      match findCloseLazy ((c :: rest).drop 4) with
      | some (inner, rest2) => inner :: scanTagsAux fuel rest2
      | none => scanTagsAux fuel rest
    else scanTagsAux fuel rest

/-- Collects the inner texts of all non-overlapping, leftmost matches of
`REGEX_MD_TAG` in a string, exactly as `re.sub` enumerates them inside
`get_used_global_tags`/`get_used_tags` (`anki_deck.py` lines 436-453): on a
match the scan resumes after the closing token, on a failed match it resumes
one character further right. -/
def scanTags (l : Str) : List Str := scanTagsAux l.length l

/-- Normalises one comma-separated tag entry: strip surrounding whitespace,
then replace every space by an underscore (`anki_deck.py` lines 439-448). -/
def normalizeTag (t : Str) : Str :=
  (pyStrip t).map (fun c => if c = ' ' then '_' else c)

/-- The set of tags declared by `REGEX_MD_TAG` occurrences inside a text:
each match's inner text is split on commas, each piece normalised, and empty
results dropped (`add_used_global_tags` in `anki_deck.py`). -/
def textTags (text : Str) : Finset Str :=
  (((scanTags text).map
      (fun inner => ((inner.splitOn ',').map normalizeTag).filter
        (fun t => t ≠ []))).flatten).toFinset

/-- An Anki note as produced by the parser: the fields of the `AnkiNote`
dataclass of `anki_deck.py` that `md_parser.py` reads or writes
(question, answer, tag set, string id). -/
structure AnkiNote where
  question : Str
  answer : Str
  tags : Finset Str
  guid : Str
deriving DecidableEq

/-- An Anki deck as produced by the parser: name, numeric id, description,
note list, tag set and document-order stamp.  These are exactly the fields
`md_parser.py` reads or writes.  The snapshot's `anki_deck.py` dataclass
lacks the `tags` and `md_document_order` fields (and `md_parser.py`'s
imports from `md2anki.info` do not resolve against the snapshot's
`info.py`), so those two fields are taken from the spec's data model (§3)
and from the parser's and the test suite's usage of them. -/
structure AnkiDeck where
  name : Str
  guid : Nat
  description : Str
  notes : List AnkiNote
  tags : Finset Str
  mdDocumentOrder : Nat
deriving DecidableEq

/-- Modelled from the spec: `AnkiDeck.get_used_global_tags` of the `AnkiDeck`
variant that `md_parser.py` is written against.  That variant is missing from
the snapshot (`src/src/md2anki/anki_deck.py` holds an `AnkiDeck` without a
`tags` field, on which `md_parser.py` line 264 would fail).  Following §4.3 —
"the deck's *fully resolved* tag set (its own tags plus everything inherited
at push-time)" — and the expectations of `tests/tests_md_parser.py`, the
resolved tag set is the tags declared in the deck's description together
with the deck's `tags` field. -/
def getUsedGlobalTags (d : AnkiDeck) : Finset Str :=
  textTags d.description ∪ d.tags

/-- The constant `MD_ANKI_DECK_HEADING_SUBDECK_PREFIX = "Subdeck: "` from
`md2anki.info`. -/
def subdeckHeadingToken : Str := strL "Subdeck: "

/-- The constant `ANKI_SUBDECK_SEPARATOR = "::"` from `md2anki.info`. -/
def ankiSubdeckSeparator : Str := strL "::"

/-- The constant `MD_ANKI_NOTE_QUESTION_ANSWER_SEPARATOR = "---"` from
`md2anki.info`. -/
def qaSeparatorToken : Str := strL "---"

/-- Modelled generator for `create_unique_id_int` (`create_id.py`):
`random.getrandbits(32)` draws from the global PRNG; the hidden generator
state is threaded explicitly as a counter and the draw returns its current
value. -/
def create_unique_id_int (g : Nat) : Nat × Nat := (g, g + 1)

/-- Modelled generator for `create_unique_id` (`create_id.py`): `uuid4()`
rendered as a decimal string of the threaded generator state. -/
def create_unique_id (g : Nat) : Str × Nat := (Nat.toDigits 10 g, g + 1)

/-- Embedding of `parse_possible_anki_deck_heading` (`md_parser.py` lines
73-113).  On a regex match the deck id is the explicit one or a freshly
generated one; the name is flagged and stripped when it starts with the
subdeck token, and a supplied parent deck name is prepended (with the `::`
separator) *unconditionally*.  Returns the optional match result together
with the new generator state. -/
def parse_possible_anki_deck_heading (line : Str) (parentDeckName : Option Str)
    (g : Nat) : Option (AnkiDeck × Nat × Bool) × Nat :=
  match matchDeckHeadingLine line with
  | none => (none, g)
  | some (depth, nameText, ido) =>
    let gp : Nat × Nat :=
      match ido with
      | some i => (i, g)
      | none => create_unique_id_int g
    let isSubdeck := startsWithList subdeckHeadingToken nameText
    let name1 := if isSubdeck then nameText.drop subdeckHeadingToken.length else nameText
    let name2 :=
      match parentDeckName with
      | some p => p ++ ankiSubdeckSeparator ++ name1
      | none => name1
    (some ({ name := name2, guid := gp.1, description := [], notes := [],
             tags := ∅, mdDocumentOrder := 0 }, depth, isSubdeck), gp.2)

/-- Embedding of `parse_possible_anki_note_heading` (`md_parser.py` lines
116-128): a note with the heading text as question and the explicit or a
freshly generated string id. -/
def parse_possible_anki_note_heading (line : Str) (g : Nat) :
    Option (AnkiNote × Nat) × Nat :=
  match matchNoteHeadingLine line with
  | none => (none, g)
  | some (depth, nameText, ido) =>
    let gp : Str × Nat :=
      match ido with
      | some i => (i, g)
      | none => create_unique_id g
    (some ({ question := nameText, answer := [], tags := ∅, guid := gp.1 }, depth), gp.2)

/-- The parse states of `ParseStateMarkdownDocument` (`md_parser.py` lines
55-70).  `lookingForSubdeckDescription` is declared by the Python enum but
never assigned inside the parser loop. -/
inductive PState where
  | looking
  | insideDeck
  | lookingForSubdeckDescription
  | noteQuestion
  | noteAnswer
deriving DecidableEq

/-- The failure modes of `parse_md_content_to_anki_deck_list`: the four
declared exception classes (`md_parser.py` lines 31-52) plus the raw
`IndexError` that Python raises on an out-of-range list access
(`anki_decks_stack[-1]` on an empty stack, or `list.pop()` on an empty
list), which the parser does not catch. -/
inductive ParseError where
  | noAnkiDeckFound
  | rootAnkiDeckWasSubdeck
  | ankiNoteUnexpectedDepth
  | ankiSubdeckUnexpectedDepth
  | indexError
deriving DecidableEq

/-- The loop-carried state of `parse_md_content_to_anki_deck_list`
(`md_parser.py` lines 142-154): document-order counter, blank-line counter,
parse state, emitted decks, open-deck stack (top of stack last), plus the
threaded id-generator state. -/
structure St where
  counter : Nat
  emptyLines : Nat
  ps : PState
  decks : List AnkiDeck
  stack : List AnkiDeck
  fresh : Nat
deriving DecidableEq

/-- One iteration of the pop loops at `md_parser.py` lines 233-243 and
292-300, operating on the reversed stack (`rev` lists the stack top first):
while the stack is longer than `target`, pop the top and append it to the
emitted decks accumulator; popping an empty list is Python's `IndexError`,
reported as `none`. -/
def popLoop (acc : List AnkiDeck) (rev : List AnkiDeck) (target : Int) :
    Option (List AnkiDeck × List AnkiDeck) :=
  if (rev.length : Int) > target then
    match rev with
    | [] => none
    | x :: xs => popLoop (acc ++ [x]) xs target
  else some (acc, rev)

/-- Runs the pop loop on a stack: returns the new emitted-decks list, the
new stack and the `deck_was_moved`/`parent_deck_removed` flag. -/
def popDecksAbove (decks stack : List AnkiDeck) (target : Int) :
    Option (List AnkiDeck × List AnkiDeck × Bool) :=
  (popLoop [] stack.reverse target).map
    (fun p => (decks ++ p.1, p.2.reverse, !p.1.isEmpty))

/-- The subdeck push at `md_parser.py` lines 254-275: after the pops the
stack length must equal `heading depth - initial depth` (otherwise
`AnkiSubdeckUnexpectedDepth`); the parent's resolved tags are unioned into
the subdeck, the next document-order stamp is assigned, the subdeck is
pushed and the state becomes `INSIDE_ANKI_DECK`. -/
def pushSubdeck (s : St) (f : Nat) (decks stack : List AnkiDeck)
    (sub : AnkiDeck) (target : Int) : Except ParseError St :=
  if (stack.length : Int) ≠ target then .error .ankiSubdeckUnexpectedDepth
  else
    match stack.getLast? with
    | none => .error .indexError
    | some p =>
      .ok { s with
            fresh := f
            ps := PState.insideDeck
            counter := s.counter + 1
            decks := decks
            stack := stack ++ [{ sub with
              tags := sub.tags ∪ getUsedGlobalTags p
              mdDocumentOrder := s.counter }] }

/-- The subdeck transition at `md_parser.py` lines 215-275.  `top` is the
current top of stack (whose name was used as the parent name for the match).
If the stack holds more decks than the new heading depth implies, decks are
popped and emitted and the subdeck's name is recomputed against the new top
of stack (`str.replace(old, new, 1)`); with the stack emptied that recompute
is Python's `IndexError`. -/
def handleSubdeck (s : St) (f : Nat) (sub : AnkiDeck) (depth : Nat)
    (top : AnkiDeck) (initial : Int) : Except ParseError St :=
  if (s.stack.length : Int) > (depth : Int) - initial then
    match popDecksAbove s.decks s.stack ((depth : Int) - initial) with
    | none => .error .indexError
    | some (decks1, stack1, _) =>
      match stack1.getLast? with
      | none => .error .indexError
      | some newTop =>
        pushSubdeck s f decks1 stack1
          { sub with name := replaceFirst sub.name top.name newTop.name }
          ((depth : Int) - initial)
  else
    pushSubdeck s f s.decks s.stack sub ((depth : Int) - initial)

/-- The note transition at `md_parser.py` lines 276-328: depth-window check,
pop-and-emit of finished subdecks, the clone-on-removed-parent step (lines
301-319: pop the parent as well, emit it, push a copy with an empty note
list and a fresh document-order stamp), and finally the append of the new
note to the top of stack. -/
def handleNote (s : St) (f : Nat) (note : AnkiNote) (depth : Nat)
    (initial : Int) : Except ParseError St :=
  if (depth : Int) > (s.stack.length : Int) + 1 ∨ (depth : Int) < initial + 1 then
    .error .ankiNoteUnexpectedDepth
  else
    match popDecksAbove s.decks s.stack ((depth : Int) - initial) with
    | none => .error .indexError
    | some (decks1, stack1, moved) =>
      if moved then
        match stack1.getLast? with
        | none => .error .indexError
        | some p =>
          .ok { s with
                fresh := f
                ps := PState.noteQuestion
                counter := s.counter + 1
                decks := decks1 ++ [p]
                stack := stack1.dropLast ++
                  [{ p with notes := [note], mdDocumentOrder := s.counter }] }
      else
        match stack1.getLast? with
        | none => .error .indexError
        | some p =>
          .ok { s with
                fresh := f
                ps := PState.noteQuestion
                decks := decks1
                stack := stack1.dropLast ++ [{ p with notes := p.notes ++ [note] }] }

/-- The three body-state fall-through branches at `md_parser.py` lines
329-367: append to the top deck's description in `INSIDE_ANKI_DECK`; on the
question/answer separator in `ANKI_NOTE_QUESTION`, fold the accumulated
answer into the question and move to `ANKI_NOTE_ANSWER`; otherwise append to
the current note's answer.  Accumulated blank lines are flushed as that many
newline characters before the appended line, which itself contributes its
trailing newline. -/
def handleText (s : St) (f : Nat) (line stripped : Str) (top : AnkiDeck) :
    Except ParseError St :=
  if s.ps = PState.insideDeck then
    .ok { s with
          fresh := f
          emptyLines := 0
          stack := s.stack.dropLast ++
            [{ top with description := top.description ++
                 List.replicate s.emptyLines '\n' ++ line ++ ['\n'] }] }
  else if s.ps = PState.noteQuestion ∧ stripped = qaSeparatorToken then
    match top.notes.getLast? with
    | none => .error .indexError
    | some note =>
      .ok { s with
            fresh := f
            ps := PState.noteAnswer
            stack := s.stack.dropLast ++
              [{ top with notes := top.notes.dropLast ++
                   [{ note with
                      question := pyRstrip note.question ++
                        '\n' :: '\n' :: pyLstrip note.answer
                      answer := [] }] }] }
  else if s.ps = PState.noteQuestion ∨ s.ps = PState.noteAnswer then
    match top.notes.getLast? with
    | none => .error .indexError
    | some note =>
      .ok { s with
            fresh := f
            emptyLines := 0
            stack := s.stack.dropLast ++
              [{ top with notes := top.notes.dropLast ++
                   [{ note with answer := note.answer ++
                        List.replicate s.emptyLines '\n' ++ line ++ ['\n'] }] }] }
  else .ok { s with fresh := f }

/-- The root-deck search at `md_parser.py` lines 174-201: a deck heading at
the wrong depth is ignored, a subdeck-flagged heading is the fatal
`RootAnkiDeckWasSubdeckException`, and otherwise the root deck is stamped,
pushed, and the state moves to `INSIDE_ANKI_DECK`. -/
def handleLooking (s : St) (line : Str) (initial : Int) : Except ParseError St :=
  let r := parse_possible_anki_deck_heading line none s.fresh
  match r.1 with
  | none => .ok { s with fresh := r.2 }
  | some (deck, depth, isSubdeck) =>
    if (depth : Int) ≠ initial then .ok { s with fresh := r.2 }
    else if isSubdeck then .error .rootAnkiDeckWasSubdeck
    else
      .ok { s with
            fresh := r.2
            ps := PState.insideDeck
            counter := s.counter + 1
            stack := s.stack ++ [{ deck with mdDocumentOrder := s.counter }] }

/-- One iteration of the `for line in md_file` loop of
`parse_md_content_to_anki_deck_list` (`md_parser.py` lines 158-367).
Blank lines only bump the blank-line counter; in the body states both
matchers are invoked (each possibly consuming a generated id) and the
subdeck branch takes priority over the note branch. -/
def processLine (initial : Int) (s : St) (line : Str) : Except ParseError St :=
  let stripped := pyStrip line
  if stripped = [] then .ok { s with emptyLines := s.emptyLines + 1 }
  else if s.ps = PState.looking then handleLooking s line initial
  else if s.ps = PState.insideDeck ∨ s.ps = PState.noteQuestion ∨
      s.ps = PState.noteAnswer then
    match s.stack.getLast? with
    | none => .error .indexError
    | some top =>
      let r1 := parse_possible_anki_deck_heading line (some top.name) s.fresh
      let r2 := parse_possible_anki_note_heading line r1.2
      match r1.1 with
      | some (sub, depth, true) => handleSubdeck s r2.2 sub depth top initial
      | _ =>
        match r2.1 with
        | some (note, depth) => handleNote s r2.2 note depth initial
        | none => handleText s r2.2 line stripped top
  else .ok s

/-- The whole line loop, as a monadic fold of `processLine`. -/
def runLines (initial : Int) (lines : List Str) (s : St) : Except ParseError St :=
  lines.foldlM (processLine initial) s

/-- The initial loop state (`md_parser.py` lines 142-154) with generator
state `g`. -/
def initSt (g : Nat) : St :=
  { counter := 0, emptyLines := 0, ps := PState.looking, decks := [], stack := [],
    fresh := g }

/-- The per-deck clean-up pass at `md_parser.py` lines 381-389: strip the
description, then union the deck's resolved tags into each of its notes and
strip their question and answer texts. -/
def finalizeDeck (d : AnkiDeck) : AnkiDeck :=
  let d1 : AnkiDeck := { d with description := pyStrip d.description }
  { d1 with notes := d1.notes.map (fun n =>
      { n with tags := n.tags ∪ getUsedGlobalTags d1,
               question := pyStrip n.question, answer := pyStrip n.answer }) }

/-- The stable sort by document order at `md_parser.py` line 392
(Python's `list.sort` is stable; `List.insertionSort` is a stable sort). -/
def sortAnkiDecks (l : List AnkiDeck) : List AnkiDeck :=
  l.insertionSort (fun a b => a.mdDocumentOrder ≤ b.mdDocumentOrder)

/-- Embedding of `parse_md_content_to_anki_deck_list` (`md_parser.py` lines
131-400): run the line loop, flush the remaining stack in insertion order,
fail with `NoAnkiDeckFoundException` when no root heading was ever found,
clean up every deck and sort by document order. -/
def parse_md_content_to_anki_deck_list (lines : List Str) (initial : Int)
    (g : Nat) : Except ParseError (List AnkiDeck) :=
  match runLines initial lines (initSt g) with
  | .error e => .error e
  | .ok s =>
    if s.ps = PState.looking then .error .noAnkiDeckFound
    else .ok (sortAnkiDecks ((s.decks ++ s.stack).map finalizeDeck))

/-- Python `str.splitlines()` for strings whose only line separator is
`'\n'`: split on newlines, with no empty trailing entry for a trailing
newline. -/
def pySplitlinesAux : Nat → Str → List Str
  | 0, _ => []
  | _, [] => []
  | fuel + 1, c :: rest =>
    match (c :: rest).dropWhile (fun x => x ≠ '\n') with
    | [] => [(c :: rest).takeWhile (fun x => x ≠ '\n')]
    | _ :: rest2 => (c :: rest).takeWhile (fun x => x ≠ '\n') :: pySplitlinesAux fuel rest2

/-- Python `str.splitlines()` for strings whose only line separator is
`'\n'`: split on newlines, with no empty trailing entry for a trailing
newline.  Implemented with a fuel argument (the input length, which every
step strictly decreases) so that it reduces by kernel computation. -/
def pySplitlines (l : Str) : List Str := pySplitlinesAux l.length l

def pySplitlinesKeepAux : Nat → Str → List Str
  | 0, _ => []
  | _, [] => []
  | fuel + 1, c :: rest =>
    match (c :: rest).dropWhile (fun x => x ≠ '\n') with
    | [] => [(c :: rest).takeWhile (fun x => x ≠ '\n')]
    | _ :: rest2 =>
      ((c :: rest).takeWhile (fun x => x ≠ '\n') ++ ['\n']) ::
        pySplitlinesKeepAux fuel rest2

/-- Python `str.splitlines(keepends=True)` for `'\n'`-separated strings. -/
def pySplitlinesKeepends (l : Str) : List Str := pySplitlinesKeepAux l.length l

/-- Worker for `splitOnSubdeckSep`, accumulating the current component in
reverse; fuelled like `scanTagsAux`. -/
def splitOnSubdeckSepAux : Nat → Str → Str → List Str
  | _, cur, [] => [cur.reverse]
  | 0, cur, rest => [(cur.reverse ++ rest)]
  | fuel + 1, cur, c :: rest =>
    if startsWithList ankiSubdeckSeparator (c :: rest) then
      cur.reverse :: splitOnSubdeckSepAux fuel [] (rest.drop 1)
    else splitOnSubdeckSepAux fuel (c :: cur) rest

/-- Python `name.split("::")` (`ANKI_SUBDECK_SEPARATOR` has two characters;
splitting is on non-overlapping, leftmost occurrences). -/
def splitOnSubdeckSep (l : Str) : List Str :=
  splitOnSubdeckSepAux l.length [] l

/-- The `MdSection` dataclass of `anki_deck.py` (lines 35-51). -/
structure MdSection where
  heading : Str
  content : Str
  sectionName : Str
deriving DecidableEq

/-- `MdSection.create_string` (`anki_deck.py` lines 45-51), with the
`heading_prefix` parameter that every call site leaves at `None`: the
heading markers, a space, the heading and a newline, followed — when the
content is nonempty — by a blank line, the content and a newline.  A
negative depth yields no markers, as Python's `'#' * depth` does. -/
def mdSectionCreateString (sec : MdSection) (depth : Int) : Str :=
  List.replicate depth.toNat '#' ++ ' ' :: sec.heading ++ ['\n'] ++
    (if sec.content ≠ [] then '\n' :: sec.content ++ ['\n'] else [])

/-- `AnkiNote.create_md_section` (`anki_deck.py` lines 333-356) with
`local_asset_dir_path = None`, for which `update_local_file_paths` returns
its input unchanged: the first question line (right-stripped) plus the id
becomes the heading, and the remaining question lines are re-emitted
followed by the question/answer separator and the answer. -/
def noteCreateMdSection (n : AnkiNote) : MdSection :=
  let qlines := pySplitlines n.question
  let header := pyRstrip (qlines.headD [])
  let body : Str :=
    if qlines.length ≤ 1 then []
    else '\n' :: ((pySplitlinesKeepends n.question).drop 1).flatten ++
      strL "\n\n---"
  { heading := header ++ ' ' :: '(' :: n.guid ++ [')'],
    content := pyStrip (body ++ '\n' :: '\n' :: n.answer),
    sectionName := [] }

/-- `AnkiDeck.create_md_sections` (`anki_deck.py` lines 491-504): the deck's
own heading section (name plus id, with the description as content) and one
section per note. -/
def deckCreateMdSections (d : AnkiDeck) : MdSection × List MdSection :=
  ({ heading := d.name ++ ' ' :: '(' :: Nat.toDigits 10 d.guid ++ [')'],
     content := d.description,
     sectionName := d.name },
   d.notes.map noteCreateMdSection)

/-- The per-level loop of the subdeck branch of `md_merge_anki_decks_to_file`
(`anki_deck.py` lines 542-556): walk the `::`-split name components together
with the `::`-split heading components; a level whose name differs from the
one currently on the heading stack (or that is beyond it) is written as a
fresh heading of depth `initial + total - 1`, preceded by a blank line.
`total` is the number of name components of the whole deck. -/
def writeMissingLevels (initial : Int) (oldStack : List Str) (total : Nat) :
    Nat → List Str → List Str → Str
  | _, [], _ => []
  | _, _, [] => []
  | idx, nm :: ns, hd :: hs =>
    let keep : Bool :=
      match oldStack.get? idx with
      | some o => o = nm
      | none => false
    (if keep then []
     else '\n' :: mdSectionCreateString { heading := hd, content := [], sectionName := [] }
       (initial + (total : Int) - 1)) ++
      writeMissingLevels initial oldStack total (idx + 1) ns hs

/-- The body of the `for anki_deck in anki_decks` loop of
`md_merge_anki_decks_to_file` (`anki_deck.py` lines 532-570), threaded over
the pair of accumulated file text and current heading-name stack. -/
def mdMergeWriteDeck (initial : Int) (acc : Str × List Str) (deck : AnkiDeck) :
    Str × List Str :=
  let (out, stack) := acc
  let (headSec, noteSecs) := deckCreateMdSections deck
  let headingNames := splitOnSubdeckSep headSec.sectionName
  let headings := splitOnSubdeckSep headSec.heading
  let isSubdeck := headingNames.length > 1
  let out1 :=
    if isSubdeck then
      out ++ writeMissingLevels initial stack headingNames.length 0 headingNames headings
    else
      (if stack.length > 0 then out ++ ['\n'] else out) ++
        mdSectionCreateString headSec initial
  let out2 := noteSecs.foldl
    (fun o sec => o ++ '\n' ::
      mdSectionCreateString sec (initial + (headingNames.length : Int))) out1
  (out2, headingNames)

/-- Embedding of `md_merge_anki_decks_to_file` (`anki_deck.py` lines
523-575) with `local_asset_dir_path = None`; the written file is returned
as a string. -/
def md_merge_anki_decks_to_file (ankiDecks : List AnkiDeck) (initial : Int) : Str :=
  (ankiDecks.foldl (mdMergeWriteDeck initial) ([], [])).1

/-- The deck-opening heading lines of a document: lines matching the deck
heading pattern either at the configured root depth or flagged with the
reserved subdeck token.  These are the lines that can create a deck on the
open-deck stack (clone fragments excepted), and so realise the claim's
"order in which deck headings first appear in the source text". -/
def countDeckHeadingLines (lines : List Str) (initial : Int) : Nat :=
  (lines.filter (fun line =>
    match matchDeckHeadingLine line with
    | some (depth, nt, _) =>
      decide ((depth : Int) = initial) || startsWithList subdeckHeadingToken nt
    | none => false)).length

/-- The open-deck stack is a tag chain: every deck strictly above another
deck on the stack carries (at least) the lower deck's fully resolved tag
set in its `tags` field.  This is the invariant behind transitive tag
inheritance: it is established at push time (`md_parser.py` lines 263-266)
and consumed by the finalizer. -/
def TagChain (stack : List AnkiDeck) : Prop :=
  stack.Pairwise (fun a b => getUsedGlobalTags a ⊆ b.tags)

/-- The combined loop invariant of `parse_md_content_to_anki_deck_list`:
while still looking for the root deck the stack is empty; no note has
received any tags yet (tags are only assigned by the finalizer); the stack
is a tag chain; and the document-order stamps of all decks created so far
(emitted or still open) are exactly `0, ..., counter - 1`. -/
def StInv (s : St) : Prop :=
  (s.ps = PState.looking → s.stack = []) ∧
  (∀ d ∈ s.decks ++ s.stack, ∀ n ∈ d.notes, n.tags = ∅) ∧
  TagChain s.stack ∧
  (((s.decks ++ s.stack).map AnkiDeck.mdDocumentOrder : Multiset Nat) =
    Multiset.range s.counter)

end Md2Anki

deriving instance DecidableEq for Except

namespace Md2Anki

section Lemmas

/-- Empty line list: the fold returns the state unchanged. -/
theorem runLines_nil (i : Int) (s : St) : runLines i [] s = .ok s := rfl

/-- Unfolds one successful parser step of the line fold. -/
theorem runLines_cons_ok {i : Int} {l : Str} {ls : List Str} {s s1 : St}
    {r : Except ParseError St} (h1 : processLine i s l = .ok s1)
    (h2 : runLines i ls s1 = r) : runLines i (l :: ls) s = r := by
  unfold runLines
  rw [List.foldlM_cons, h1]
  exact h2

/-- Unfolds one failing parser step of the line fold. -/
theorem runLines_cons_error {i : Int} {l : Str} {ls : List Str} {s : St}
    {e : ParseError} (h1 : processLine i s l = .error e) :
    runLines i (l :: ls) s = .error e := by
  unfold runLines
  rw [List.foldlM_cons, h1]
  rfl

/-- `pyRstrip` is Mathlib's `rdropWhile` on the whitespace predicate. -/
theorem pyRstrip_eq_rdropWhile (l : Str) :
    pyRstrip l = List.rdropWhile pyIsSpace l := rfl

/-- Left-stripping is idempotent. -/
theorem pyLstrip_idem (l : Str) : pyLstrip (pyLstrip l) = pyLstrip l :=
  List.dropWhile_idempotent ..

/-- A left-stripped string stays left-stripped after right-stripping. -/
theorem pyLstrip_pyRstrip (l : Str) (h : pyLstrip l = l) :
    pyLstrip (pyRstrip l) = pyRstrip l := by
  obtain ⟨t, ht⟩ := List.rdropWhile_prefix pyIsSpace (l := l)
  rw [← pyRstrip_eq_rdropWhile] at ht
  match hr : pyRstrip l with
  | [] => rfl
  | c :: cs =>
    rw [hr] at ht
    have hl : l = c :: (cs ++ t) := by rw [← ht]; simp
    have hc : ¬ pyIsSpace c := by
      intro hcsp
      rw [hl] at h
      unfold pyLstrip at h
      rw [List.dropWhile_cons_of_pos hcsp] at h
      have h1 : (List.dropWhile pyIsSpace (cs ++ t)).length = (cs ++ t).length + 1 := by
        rw [h]; simp
      have h2 : (List.dropWhile pyIsSpace (cs ++ t)).length ≤ (cs ++ t).length :=
        List.Sublist.length_le (List.dropWhile_sublist _)
      omega
    unfold pyLstrip
    exact List.dropWhile_cons_of_neg hc

/-- Full stripping is idempotent. -/
theorem pyStrip_idem (l : Str) : pyStrip (pyStrip l) = pyStrip l := by
  show pyRstrip (pyLstrip (pyRstrip (pyLstrip l))) = pyRstrip (pyLstrip l)
  rw [pyLstrip_pyRstrip (pyLstrip l) (pyLstrip_idem l),
    pyRstrip_eq_rdropWhile, pyRstrip_eq_rdropWhile, List.rdropWhile_idempotent]

/-- A line whose head character is not a heading marker matches neither
heading regex. -/
theorem matchDeckHeadingLine_eq_none {line : Str}
    (h : ∀ c, line.head? = some c → ¬ c = '#') :
    matchDeckHeadingLine line = none := by
  match line with
  | [] => rfl
  | c :: rest =>
    have hc : ¬ c = '#' := h c rfl
    unfold matchDeckHeadingLine
    rw [List.takeWhile_cons_of_neg (by simpa using hc)]
    simp

/-- A line whose head character is not a heading marker does not match the
note heading regex either. -/
theorem matchNoteHeadingLine_eq_none {line : Str}
    (h : ∀ c, line.head? = some c → ¬ c = '#') :
    matchNoteHeadingLine line = none := by
  match line with
  | [] => rfl
  | c :: rest =>
    have hc : ¬ c = '#' := h c rfl
    unfold matchNoteHeadingLine
    rw [List.takeWhile_cons_of_neg (by simpa using hc)]
    simp

/-- A line that strips to the question/answer separator token cannot start
with a heading marker. -/
theorem head_ne_hash_of_strip_sep {line : Str}
    (h : pyStrip line = qaSeparatorToken) :
    ∀ c, line.head? = some c → ¬ c = '#' := by
  intro c hc hcontra
  subst hcontra
  cases line with
  | nil => exact Option.noConfusion hc
  | cons c0 r =>
    have hc0 : c0 = '#' := by simpa using hc
    subst hc0
    have hls : pyLstrip ('#' :: r) = '#' :: r := by
      unfold pyLstrip
      exact List.dropWhile_cons_of_neg (by decide)
    unfold pyStrip at h
    rw [hls, pyRstrip_eq_rdropWhile] at h
    obtain ⟨t, ht⟩ := List.rdropWhile_prefix pyIsSpace (l := '#' :: r)
    rw [h] at ht
    have hq : qaSeparatorToken ++ t = '-' :: ('-' :: '-' :: t) := rfl
    rw [hq] at ht
    have hd : '-' = '#' := by injection ht
    exact absurd hd (by decide)

/-- Membership in the parser's output list comes from a deck of the final
state, passed through `finalizeDeck`. -/
theorem mem_parse_output {lines : List Str} {i : Int} {g : Nat}
    {res : List AnkiDeck}
    (h : parse_md_content_to_anki_deck_list lines i g = .ok res) :
    ∃ s, runLines i lines (initSt g) = .ok s ∧
      ∀ d ∈ res, ∃ d0 ∈ s.decks ++ s.stack, d = finalizeDeck d0 := by
  unfold parse_md_content_to_anki_deck_list at h
  match hrun : runLines i lines (initSt g) with
  | .error e => rw [hrun] at h; exact Except.noConfusion h
  | .ok s =>
    rw [hrun] at h
    refine ⟨s, rfl, ?_⟩
    have h2 : (if s.ps = PState.looking
        then (Except.error ParseError.noAnkiDeckFound : Except ParseError (List AnkiDeck))
        else .ok (sortAnkiDecks ((s.decks ++ s.stack).map finalizeDeck))) = .ok res := h
    by_cases hps : s.ps = PState.looking
    · rw [if_pos hps] at h2
      exact Except.noConfusion h2
    · rw [if_neg hps] at h2
      have hres : sortAnkiDecks ((s.decks ++ s.stack).map finalizeDeck) = res :=
        Except.ok.inj h2
      intro d hd
      rw [← hres] at hd
      have hmem : d ∈ (s.decks ++ s.stack).map finalizeDeck :=
        (List.Perm.mem_iff (List.perm_insertionSort _ _)).mp hd
      obtain ⟨d0, hd0, hdeq⟩ := List.mem_map.mp hmem
      exact ⟨d0, hd0, hdeq.symm⟩

/-- With a negative target the pop loop always exhausts the stack and then
pops once more from the empty list: Python's `IndexError`. -/
theorem popLoop_neg (acc rev : List AnkiDeck) (t : Int) (ht : t < 0) :
    popLoop acc rev t = none := by
  induction rev generalizing acc with
  | nil => unfold popLoop; rw [if_pos (by simpa using ht)]
  | cons x xs ih =>
    unfold popLoop
    rw [if_pos (by simp only [List.length_cons]; omega)]
    exact ih (acc ++ [x])

/-- Characterisation of the pop loop for a non-negative target: it moves
some final segment of the (reversed) stack onto the accumulator, leaving
exactly `target` entries when it popped at all. -/
theorem popLoop_ok (acc rev : List AnkiDeck) (t : Int) (ht : 0 ≤ t) :
    ∃ q r, popLoop acc rev t = some (acc ++ q, r) ∧ q ++ r = rev ∧
      ((rev.length : Int) ≤ t → q = [] ∧ r = rev) ∧
      ((rev.length : Int) > t → (r.length : Int) = t) := by
  induction rev generalizing acc with
  | nil =>
    refine ⟨[], [], ?_, rfl, fun _ => ⟨rfl, rfl⟩, fun hgt => absurd hgt (by simpa)⟩
    unfold popLoop
    rw [if_neg (by simpa using ht)]
    simp
  | cons x xs ih =>
    by_cases hc : ((x :: xs).length : Int) > t
    · obtain ⟨q, r, hpop, hqr, hle, hgt⟩ := ih (acc ++ [x])
      refine ⟨x :: q, r, ?_, by rw [← hqr]; simp, fun h => absurd h (by omega), ?_⟩
      · unfold popLoop
        rw [if_pos hc]
        show popLoop (acc ++ [x]) xs t = some (acc ++ x :: q, r)
        rw [hpop]
        simp
      · intro _
        by_cases hxs : (xs.length : Int) > t
        · exact hgt hxs
        · have hxle : (xs.length : Int) ≤ t := by omega
          obtain ⟨hq, hr⟩ := hle hxle
          subst hr
          simp only [List.length_cons] at hc
          push_cast at hc hxle ⊢
          omega
    · refine ⟨[], x :: xs, ?_, by simp, fun _ => ⟨rfl, rfl⟩, fun hgt => absurd hgt hc⟩
      unfold popLoop
      rw [if_neg hc]
      simp

/-- A deck returned by the deck-heading matcher carries no description, no
notes and no tags yet. -/
theorem deck_matcher_fresh {line : Str} {p : Option Str} {g : Nat}
    {d : AnkiDeck} {dep : Nat} {b : Bool} {f : Nat}
    (h : parse_possible_anki_deck_heading line p g = (some (d, dep, b), f)) :
    d.description = [] ∧ d.notes = [] ∧ d.tags = ∅ := by
  unfold parse_possible_anki_deck_heading at h
  match hm : matchDeckHeadingLine line with
  | none => rw [hm] at h; simp at h
  | some (dep2, nt, ido) =>
    rw [hm] at h
    simp only [Prod.mk.injEq, Option.some.injEq] at h
    obtain ⟨⟨hd, _⟩, _⟩ := h
    rw [← hd]
    exact ⟨rfl, rfl, rfl⟩

/-- A note returned by the note-heading matcher carries no answer and no
tags yet. -/
theorem note_matcher_fresh {line : Str} {g : Nat} {n : AnkiNote} {dep : Nat}
    {f : Nat}
    (h : parse_possible_anki_note_heading line g = (some (n, dep), f)) :
    n.answer = [] ∧ n.tags = ∅ := by
  unfold parse_possible_anki_note_heading at h
  match hm : matchNoteHeadingLine line with
  | none => rw [hm] at h; simp at h
  | some (dep2, nt, ido) =>
    rw [hm] at h
    simp only [Prod.mk.injEq, Option.some.injEq] at h
    obtain ⟨⟨hn, _⟩, _⟩ := h
    rw [← hn]
    exact ⟨rfl, rfl⟩

/-- A deck's stored tag set is contained in its fully resolved tag set. -/
theorem tags_subset_getUsed (d : AnkiDeck) : d.tags ⊆ getUsedGlobalTags d :=
  Finset.subset_union_right

/-- Pushing a deck whose tags include the stack top's resolved tags onto a
tag chain yields a tag chain. -/
theorem tagChain_push {stack : List AnkiDeck} {p d : AnkiDeck}
    (hchain : TagChain stack) (hlast : stack.getLast? = some p)
    (hd : getUsedGlobalTags p ⊆ d.tags) : TagChain (stack ++ [d]) := by
  obtain ⟨l', rfl⟩ := List.getLast?_eq_some_iff.mp hlast
  unfold TagChain at hchain ⊢
  rw [List.pairwise_append]
  refine ⟨hchain, List.pairwise_singleton .., ?_⟩
  intro a ha y hy
  rw [List.mem_singleton] at hy
  subst hy
  rcases List.mem_append.mp ha with ha' | ha'
  · have h1 : getUsedGlobalTags a ⊆ p.tags := by
      rw [List.pairwise_append] at hchain
      exact hchain.2.2 a ha' p (List.mem_singleton_self p)
    exact h1.trans ((tags_subset_getUsed p).trans hd)
  · rw [List.mem_singleton] at ha'
    subst ha'
    exact hd

/-- Replacing the top of a tag chain by a deck with the same tags keeps the
chain. -/
theorem tagChain_replaceTop {l' : List AnkiDeck} {top top' : AnkiDeck}
    (hchain : TagChain (l' ++ [top])) (htags : top'.tags = top.tags) :
    TagChain (l' ++ [top']) := by
  unfold TagChain at hchain ⊢
  rw [List.pairwise_append] at hchain ⊢
  refine ⟨hchain.1, List.pairwise_singleton .., ?_⟩
  intro a ha y hy
  rw [List.mem_singleton] at hy
  subst hy
  rw [htags]
  exact hchain.2.2 a ha top (List.mem_singleton_self top)

/-- Replacing the top deck of the stack preserves blank note tags provided
the new top's notes all have blank tags. -/
theorem notesBlank_replaceTop {decks l' : List AnkiDeck} {top top' : AnkiDeck}
    (h : ∀ d ∈ decks ++ (l' ++ [top]), ∀ n ∈ d.notes, n.tags = ∅)
    (h' : ∀ n ∈ top'.notes, n.tags = ∅) :
    ∀ d ∈ decks ++ (l' ++ [top']), ∀ n ∈ d.notes, n.tags = ∅ := by
  intro d hd
  rcases List.mem_append.mp hd with h1 | h1
  · exact h d (List.mem_append.mpr (Or.inl h1))
  · rcases List.mem_append.mp h1 with h2 | h2
    · exact h d (by simp [h2])
    · rw [List.mem_singleton] at h2
      subst h2
      exact h'

/-- Modifying the last note of a note list without touching its tags keeps
all tags blank. -/
theorem notesBlank_modLast {nl : List AnkiNote} {note note' : AnkiNote}
    (h : ∀ n ∈ nl ++ [note], n.tags = ∅) (htags : note'.tags = note.tags) :
    ∀ n ∈ nl ++ [note'], n.tags = ∅ := by
  intro n hn
  rcases List.mem_append.mp hn with h1 | h1
  · exact h n (List.mem_append.mpr (Or.inl h1))
  · rw [List.mem_singleton] at h1
    subst h1
    rw [htags]
    exact h note (List.mem_append.mpr (Or.inr (List.mem_singleton_self note)))

/-- The `handleText` branches preserve the combined parser invariant: they
only rewrite the top deck's description or its last note's question/answer,
never a tag, a document order or the shape of the stack. -/
theorem handleText_inv {s : St} {f : Nat} {line stripped : Str}
    {top : AnkiDeck} {s2 : St}
    (h : handleText s f line stripped top = .ok s2)
    (hst : s.stack.getLast? = some top)
    (hbody : s.ps = PState.insideDeck ∨ s.ps = PState.noteQuestion ∨
      s.ps = PState.noteAnswer)
    (hinv : StInv s) : StInv s2 := by
  obtain ⟨hlook, hblank, hchain, horders⟩ := hinv
  obtain ⟨l', hstack⟩ := List.getLast?_eq_some_iff.mp hst
  have hnotlook : ¬ s.ps = PState.looking := by
    rcases hbody with h1 | h1 | h1 <;> rw [h1] <;> intro hc <;> exact PState.noConfusion hc
  have hblank2 : ∀ d ∈ s.decks ++ (l' ++ [top]), ∀ n ∈ d.notes, n.tags = ∅ :=
    hstack ▸ hblank
  have hchain2 : TagChain (l' ++ [top]) := hstack ▸ hchain
  have horders2 : ((s.decks ++ (l' ++ [top])).map AnkiDeck.mdDocumentOrder :
      Multiset Nat) = Multiset.range s.counter := hstack ▸ horders
  unfold handleText at h
  by_cases h1 : s.ps = PState.insideDeck
  · rw [if_pos h1] at h
    have hs2 := (Except.ok.inj h).symm
    subst hs2
    refine ⟨fun hc => absurd hc hnotlook, ?_, ?_, ?_⟩
    · simp only [hstack, List.dropLast_concat]
      exact notesBlank_replaceTop hblank2 (fun n hn => hblank2 top (by simp) n hn)
    · simp only [hstack, List.dropLast_concat]
      exact tagChain_replaceTop hchain2 rfl
    · simp only [hstack, List.dropLast_concat]
      simpa using horders2
  · rw [if_neg h1] at h
    by_cases h2 : s.ps = PState.noteQuestion ∧ stripped = qaSeparatorToken
    · rw [if_pos h2] at h
      match hn : top.notes.getLast? with
      | none => rw [hn] at h; exact Except.noConfusion h
      | some note =>
        rw [hn] at h
        obtain ⟨nl, hnl⟩ := List.getLast?_eq_some_iff.mp hn
        have hnotes2 : ∀ n ∈ nl ++ [note], n.tags = ∅ :=
          hnl ▸ hblank2 top (by simp)
        have hs2 := (Except.ok.inj h).symm
        subst hs2
        refine ⟨fun hc => PState.noConfusion hc, ?_, ?_, ?_⟩
        · simp only [hstack, List.dropLast_concat]
          refine notesBlank_replaceTop hblank2 ?_
          show ∀ n ∈ top.notes.dropLast ++ [_], n.tags = ∅
          rw [hnl, List.dropLast_concat]
          exact notesBlank_modLast hnotes2 rfl
        · simp only [hstack, List.dropLast_concat]
          exact tagChain_replaceTop hchain2 rfl
        · simp only [hstack, List.dropLast_concat]
          simpa using horders2
    · rw [if_neg h2] at h
      by_cases h3 : s.ps = PState.noteQuestion ∨ s.ps = PState.noteAnswer
      · rw [if_pos h3] at h
        match hn : top.notes.getLast? with
        | none => rw [hn] at h; exact Except.noConfusion h
        | some note =>
          rw [hn] at h
          obtain ⟨nl, hnl⟩ := List.getLast?_eq_some_iff.mp hn
          have hnotes2 : ∀ n ∈ nl ++ [note], n.tags = ∅ :=
            hnl ▸ hblank2 top (by simp)
          have hs2 := (Except.ok.inj h).symm
          subst hs2
          refine ⟨fun hc => absurd hc hnotlook, ?_, ?_, ?_⟩
          · simp only [hstack, List.dropLast_concat]
            refine notesBlank_replaceTop hblank2 ?_
            show ∀ n ∈ top.notes.dropLast ++ [_], n.tags = ∅
            rw [hnl, List.dropLast_concat]
            exact notesBlank_modLast hnotes2 rfl
          · simp only [hstack, List.dropLast_concat]
            exact tagChain_replaceTop hchain2 rfl
          · simp only [hstack, List.dropLast_concat]
            simpa using horders2
      · rw [if_neg h3] at h
        have hs2 := (Except.ok.inj h).symm
        subst hs2
        exact ⟨fun hc => absurd hc hnotlook, hblank, hchain, horders⟩

/-- `popDecksAbove` with a negative target is Python's `IndexError`. -/
theorem popDecksAbove_neg (decks stack : List AnkiDeck) (t : Int) (ht : t < 0) :
    popDecksAbove decks stack t = none := by
  unfold popDecksAbove
  rw [popLoop_neg _ _ _ ht]
  rfl

/-- Characterisation of `popDecksAbove` for a non-negative target. -/
theorem popDecksAbove_ok (decks stack : List AnkiDeck) (t : Int) (ht : 0 ≤ t) :
    ∃ q r, popDecksAbove decks stack t = some (decks ++ q, r.reverse, !q.isEmpty) ∧
      q ++ r = stack.reverse ∧
      ((stack.length : Int) ≤ t → q = [] ∧ r.reverse = stack) ∧
      ((stack.length : Int) > t → (r.length : Int) = t) := by
  obtain ⟨q, r, hpop, hqr, hle, hgt⟩ := popLoop_ok [] stack.reverse t ht
  refine ⟨q, r, ?_, hqr, ?_, ?_⟩
  · unfold popDecksAbove
    rw [hpop]
    simp
  · intro h
    obtain ⟨hq, hr⟩ := hle (by simpa using h)
    exact ⟨hq, by rw [hr]; simp⟩
  · intro h
    exact hgt (by simpa using h)

/-- The two pop loops rearrange decks between the emitted list and the
stack without creating or dropping any deck. -/
theorem pop_perm {decks stack q r : List AnkiDeck}
    (hqr : q ++ r = stack.reverse) :
    ((decks ++ q) ++ r.reverse).Perm (decks ++ stack) := by
  have h1 : (decks ++ q) ++ r.reverse = decks ++ (q ++ r.reverse) :=
    List.append_assoc ..
  rw [h1]
  refine List.Perm.append_left decks ?_
  have h2 : (q ++ r.reverse).Perm (q ++ r) :=
    List.Perm.append_left q (List.reverse_perm r)
  rw [hqr] at h2
  exact h2.trans (List.reverse_perm stack)

/-- Permuting the deck list does not change the multiset of document
orders. -/
theorem orders_of_perm {l1 l2 : List AnkiDeck} (h : l1.Perm l2) :
    ((l1.map AnkiDeck.mdDocumentOrder : List Nat) : Multiset Nat) =
      ((l2.map AnkiDeck.mdDocumentOrder : List Nat) : Multiset Nat) :=
  Multiset.coe_eq_coe.mpr (h.map _)

/-- Appending one deck stamped with the current counter extends the order
multiset from `range counter` to `range (counter + 1)`. -/
theorem orders_snoc {l : List AnkiDeck} {c : Nat} {d : AnkiDeck}
    (h : ((l.map AnkiDeck.mdDocumentOrder : List Nat) : Multiset Nat) =
      Multiset.range c)
    (hd : d.mdDocumentOrder = c) :
    (((l ++ [d]).map AnkiDeck.mdDocumentOrder : List Nat) : Multiset Nat) =
      Multiset.range (c + 1) := by
  rw [List.map_append]
  rw [show ((l.map AnkiDeck.mdDocumentOrder ++ [d].map AnkiDeck.mdDocumentOrder :
    List Nat) : Multiset Nat) =
    ((l.map AnkiDeck.mdDocumentOrder : List Nat) : Multiset Nat) +
    (([d].map AnkiDeck.mdDocumentOrder : List Nat) : Multiset Nat) from
    (Multiset.coe_add ..).symm ▸ rfl]
  rw [h, Multiset.range_succ]
  simp [hd]
  rw [← Multiset.singleton_add, add_comm]

/-- The subdeck push preserves the combined invariant: the freshly matched
subdeck receives the old top's resolved tags, extending the tag chain, and
its document-order stamp is the incremented counter. -/
theorem pushSubdeck_inv {s : St} {f : Nat} {decks stack : List AnkiDeck}
    {sub : AnkiDeck} {t : Int} {s2 : St}
    (h : pushSubdeck s f decks stack sub t = .ok s2)
    (hblank : ∀ d ∈ decks ++ stack, ∀ n ∈ d.notes, n.tags = ∅)
    (hchain : TagChain stack)
    (horders : (((decks ++ stack).map AnkiDeck.mdDocumentOrder : List Nat) :
      Multiset Nat) = Multiset.range s.counter)
    (hsub_tags : sub.tags = ∅) (hsub_notes : sub.notes = []) : StInv s2 := by
  unfold pushSubdeck at h
  by_cases hne : (stack.length : Int) ≠ t
  · rw [if_pos hne] at h
    exact Except.noConfusion h
  · rw [if_neg hne] at h
    match hp : stack.getLast? with
    | none => rw [hp] at h; exact Except.noConfusion h
    | some p =>
      rw [hp] at h
      have hs2 := (Except.ok.inj h).symm
      subst hs2
      refine ⟨fun hc => PState.noConfusion hc, ?_, ?_, ?_⟩
      · intro d hd
        rcases List.mem_append.mp hd with h1 | h1
        · exact hblank d (by simp [h1])
        · rcases List.mem_append.mp h1 with h2 | h2
          · exact hblank d (by simp [h2])
          · rw [List.mem_singleton] at h2
            subst h2
            intro n hn
            simp only [hsub_notes] at hn
            exact absurd hn (List.not_mem_nil n)
      · refine tagChain_push hchain hp ?_
        show getUsedGlobalTags p ⊆ sub.tags ∪ getUsedGlobalTags p
        rw [hsub_tags, Finset.empty_union]
      · rw [show decks ++ (stack ++ [_]) = (decks ++ stack) ++ [_] from
          (List.append_assoc ..).symm]
        exact orders_snoc horders rfl

/-- The root-deck search preserves the combined invariant. -/
theorem handleLooking_inv {s : St} {line : Str} {i : Int} {s2 : St}
    (h : handleLooking s line i = .ok s2) (hlookst : s.ps = PState.looking)
    (hinv : StInv s) : StInv s2 := by
  obtain ⟨hlook, hblank, hchain, horders⟩ := hinv
  have hempty : s.stack = [] := hlook hlookst
  unfold handleLooking at h
  rcases hm : parse_possible_anki_deck_heading line none s.fresh with ⟨o, f⟩
  simp only [hm] at h
  match o, hm with
  | none, hm =>
    have hs2 := (Except.ok.inj h).symm
    subst hs2
    exact ⟨fun _ => hempty, hblank, hchain, horders⟩
  | some (deck, depth, isSub), hm =>
    have h2 : (if ¬ (depth : Int) = i then
          (Except.ok { s with fresh := f } : Except ParseError St)
        else if isSub = true then
          Except.error ParseError.rootAnkiDeckWasSubdeck
        else
          Except.ok { s with counter := s.counter + 1, ps := PState.insideDeck, stack := s.stack ++ [{ deck with mdDocumentOrder := s.counter }], fresh := f }) = Except.ok s2 := h
    by_cases hdep : ¬ (depth : Int) = i
    · rw [if_pos hdep] at h2
      have hs2 := (Except.ok.inj h2).symm
      subst hs2
      exact ⟨fun _ => hempty, hblank, hchain, horders⟩
    · rw [if_neg hdep] at h2
      cases isSub with
      | true =>
        rw [if_pos rfl] at h2
        exact Except.noConfusion h2
      | false =>
        rw [if_neg (by simp)] at h2
        have hs2 := (Except.ok.inj h2).symm
        subst hs2
        obtain ⟨_, hdnotes, _⟩ := deck_matcher_fresh hm
        refine ⟨fun hc => PState.noConfusion hc, ?_, ?_, ?_⟩
        · intro d hd
          rcases List.mem_append.mp hd with h1 | h1
          · exact hblank d (by simp [h1])
          · rcases List.mem_append.mp h1 with h2 | h2
            · exact hblank d (by simp [h2])
            · rw [List.mem_singleton] at h2
              subst h2
              intro n hn
              simp only [hdnotes] at hn
              exact absurd hn (List.not_mem_nil n)
        · rw [hempty]
          exact List.pairwise_singleton ..
        · rw [show s.decks ++ (s.stack ++ [_]) = (s.decks ++ s.stack) ++ [_] from
            (List.append_assoc ..).symm]
          exact orders_snoc horders rfl

/-- The subdeck transition preserves the combined invariant: pops permute
decks between stack and output, the rename touches only the subdeck's name,
and the push extends the tag chain and stamps the counter. -/
theorem handleSubdeck_inv {s : St} {f : Nat} {sub : AnkiDeck} {depth : Nat}
    {top : AnkiDeck} {i : Int} {s2 : St}
    (h : handleSubdeck s f sub depth top i = .ok s2)
    (hinv : StInv s) (hsub_tags : sub.tags = ∅)
    (hsub_notes : sub.notes = []) : StInv s2 := by
  obtain ⟨hlook, hblank, hchain, horders⟩ := hinv
  unfold handleSubdeck at h
  by_cases hgt : (s.stack.length : Int) > (depth : Int) - i
  · rw [if_pos hgt] at h
    by_cases ht : 0 ≤ (depth : Int) - i
    · obtain ⟨q, r, hpop, hqr, hle, hgt2⟩ := popDecksAbove_ok s.decks s.stack _ ht
      rw [hpop] at h
      have h3 : (match r.reverse.getLast? with
          | none => (Except.error ParseError.indexError : Except ParseError St)
          | some newTop =>
            pushSubdeck s f (s.decks ++ q) r.reverse
              { sub with name := replaceFirst sub.name top.name newTop.name }
              ((depth : Int) - i)) = Except.ok s2 := h
      have hperm : ((s.decks ++ q) ++ r.reverse).Perm (s.decks ++ s.stack) :=
        pop_perm hqr
      have hblankr : ∀ d ∈ (s.decks ++ q) ++ r.reverse, ∀ n ∈ d.notes, n.tags = ∅ :=
        fun d hd2 => hblank d (hperm.mem_iff.mp hd2)
      have hsubl : r.reverse.Sublist s.stack := by
        have hs : r.Sublist s.stack.reverse := List.IsSuffix.sublist ⟨q, hqr⟩
        have := hs.reverse
        rwa [List.reverse_reverse] at this
      have hchainr : TagChain r.reverse := List.Pairwise.sublist hsubl hchain
      have hordersr : ((((s.decks ++ q) ++ r.reverse).map AnkiDeck.mdDocumentOrder :
          List Nat) : Multiset Nat) = Multiset.range s.counter := by
        rw [orders_of_perm hperm]
        exact horders
      match hr2 : r.reverse.getLast? with
      | none =>
        rw [hr2] at h3
        exact Except.noConfusion h3
      | some newTop =>
        simp only [hr2] at h3
        exact pushSubdeck_inv h3 hblankr hchainr hordersr hsub_tags hsub_notes
    · rw [popDecksAbove_neg _ _ _ (by omega)] at h
      exact Except.noConfusion h
  · rw [if_neg hgt] at h
    exact pushSubdeck_inv h hblank hchain horders hsub_tags hsub_notes

/-- The note transition preserves the combined invariant: pops permute
decks between stack and output, the optional clone keeps the popped
parent's tags and order-stamps the counter, and the appended note has blank
tags. -/
theorem handleNote_inv {s : St} {f : Nat} {note : AnkiNote} {depth : Nat}
    {i : Int} {s2 : St}
    (h : handleNote s f note depth i = .ok s2)
    (hinv : StInv s) (hnote_tags : note.tags = ∅) : StInv s2 := by
  obtain ⟨hlook, hblank, hchain, horders⟩ := hinv
  unfold handleNote at h
  by_cases hd : (depth : Int) > (s.stack.length : Int) + 1 ∨ (depth : Int) < i + 1
  · rw [if_pos hd] at h
    exact Except.noConfusion h
  · rw [if_neg hd] at h
    push_neg at hd
    have ht0 : 0 ≤ (depth : Int) - i := by omega
    obtain ⟨q, r, hpop, hqr, hle, hgt⟩ := popDecksAbove_ok s.decks s.stack _ ht0
    rw [hpop] at h
    have h2 : (if (!q.isEmpty) = true then
          (match r.reverse.getLast? with
            | none => (Except.error ParseError.indexError : Except ParseError St)
            | some p => Except.ok { s with counter := s.counter + 1, ps := PState.noteQuestion, decks := (s.decks ++ q) ++ [p], stack := r.reverse.dropLast ++ [{ p with notes := [note], mdDocumentOrder := s.counter }], fresh := f })
        else
          (match r.reverse.getLast? with
            | none => (Except.error ParseError.indexError : Except ParseError St)
            | some p => Except.ok { s with ps := PState.noteQuestion, decks := s.decks ++ q, stack := r.reverse.dropLast ++ [{ p with notes := p.notes ++ [note] }], fresh := f })) = Except.ok s2 := h
    have hperm : ((s.decks ++ q) ++ r.reverse).Perm (s.decks ++ s.stack) :=
      pop_perm hqr
    have hordersr : ((((s.decks ++ q) ++ r.reverse).map AnkiDeck.mdDocumentOrder :
        List Nat) : Multiset Nat) = Multiset.range s.counter := by
      rw [orders_of_perm hperm]
      exact horders
    have hmem : ∀ d ∈ (s.decks ++ q) ++ r.reverse, d ∈ s.decks ++ s.stack :=
      fun d hd2 => hperm.mem_iff.mp hd2
    have hblankr : ∀ d ∈ (s.decks ++ q) ++ r.reverse, ∀ n ∈ d.notes, n.tags = ∅ :=
      fun d hd2 => hblank d (hmem d hd2)
    have hsuf : r.Sublist s.stack.reverse :=
      List.IsSuffix.sublist ⟨q, hqr⟩
    have hsubl : r.reverse.Sublist s.stack := by
      have := hsuf.reverse
      rwa [List.reverse_reverse] at this
    have hchainr : TagChain r.reverse := List.Pairwise.sublist hsubl hchain
    match hr2 : r.reverse.getLast? with
    | none =>
      simp only [hr2] at h2
      split at h2 <;> exact Except.noConfusion h2
    | some p =>
      simp only [hr2] at h2
      obtain ⟨l2, hl2⟩ := List.getLast?_eq_some_iff.mp hr2
      rw [hl2] at h2 hblankr hordersr hchainr
      rw [List.dropLast_concat] at h2
      have hpmem : ∀ n ∈ p.notes, n.tags = ∅ :=
        hblankr p (by simp)
      cases hq : (!q.isEmpty) <;> rw [hq] at h2
      · -- no deck was popped: append the note to the top of stack
        rw [if_neg (by simp)] at h2
        have hs2 := (Except.ok.inj h2).symm
        subst hs2
        refine ⟨fun hc => PState.noConfusion hc, ?_, ?_, ?_⟩
        · refine notesBlank_replaceTop hblankr ?_
          intro n hn
          rcases List.mem_append.mp hn with h1 | h1
          · exact hpmem n h1
          · rw [List.mem_singleton] at h1
            subst h1
            exact hnote_tags
        · exact tagChain_replaceTop hchainr rfl
        · rw [show (s.decks ++ q) ++ (l2 ++ [{ p with notes := p.notes ++ [note] }]) =
            (s.decks ++ q) ++ (l2 ++ [{ p with notes := p.notes ++ [note] }]) from rfl]
          have hperm2 : ((s.decks ++ q) ++ (l2 ++
              [{ p with notes := p.notes ++ [note] }])).map AnkiDeck.mdDocumentOrder =
              ((s.decks ++ q) ++ (l2 ++ [p])).map AnkiDeck.mdDocumentOrder := by
            simp
          rw [hperm2]
          exact hordersr
      · -- a parent deck was popped and emitted: push the clone
        rw [if_pos rfl] at h2
        have hs2 := (Except.ok.inj h2).symm
        subst hs2
        refine ⟨fun hc => PState.noConfusion hc, ?_, ?_, ?_⟩
        · intro d hd2
          rcases List.mem_append.mp hd2 with h1 | h1
          · rcases List.mem_append.mp h1 with h2 | h2
            · refine hblankr d ?_
              rcases List.mem_append.mp h2 with h3 | h3 <;> simp [h3]
            · rw [List.mem_singleton] at h2
              subst h2
              exact hblankr d (by simp)
          · rcases List.mem_append.mp h1 with h2 | h2
            · exact hblankr d (by simp [h2])
            · rw [List.mem_singleton] at h2
              subst h2
              intro n hn
              rw [List.mem_singleton] at hn
              subst hn
              exact hnote_tags
        · show TagChain (l2 ++ [_])
          exact tagChain_replaceTop hchainr rfl
        · have hassoc : ((s.decks ++ q) ++ [p]) ++ (l2 ++
              [{ p with notes := [note], mdDocumentOrder := s.counter }]) =
              (((s.decks ++ q) ++ [p]) ++ l2) ++
              [{ p with notes := [note], mdDocumentOrder := s.counter }] := by
            simp only [List.append_assoc]
          rw [hassoc]
          refine orders_snoc ?_ rfl
          have hperm3 : (((s.decks ++ q) ++ [p]) ++ l2).Perm
              ((s.decks ++ q) ++ (l2 ++ [p])) := by
            have h1 : ((s.decks ++ q) ++ [p]) ++ l2 =
                (s.decks ++ q) ++ ([p] ++ l2) := List.append_assoc ..
            rw [h1]
            exact List.Perm.append_left _ (List.perm_append_comm)
          rw [orders_of_perm hperm3]
          exact hordersr

/-- Every successful parser step preserves the combined invariant. -/
theorem processLine_inv {i : Int} {s : St} {line : Str} {s2 : St}
    (h : processLine i s line = .ok s2) (hinv : StInv s) : StInv s2 := by
  unfold processLine at h
  simp only [] at h
  by_cases hbl : pyStrip line = []
  · rw [if_pos hbl] at h
    have hs2 := (Except.ok.inj h).symm
    subst hs2
    exact hinv
  · rw [if_neg hbl] at h
    by_cases hlk : s.ps = PState.looking
    · rw [if_pos hlk] at h
      exact handleLooking_inv h hlk hinv
    · rw [if_neg hlk] at h
      by_cases hbody : s.ps = PState.insideDeck ∨ s.ps = PState.noteQuestion ∨
          s.ps = PState.noteAnswer
      · rw [if_pos hbody] at h
        match hst : s.stack.getLast? with
        | none =>
          rw [hst] at h
          exact Except.noConfusion h
        | some top =>
          simp only [hst] at h
          rcases hr1 : parse_possible_anki_deck_heading line (some top.name) s.fresh
            with ⟨o1, f1⟩
          simp only [hr1] at h
          rcases hr2 : parse_possible_anki_note_heading line f1 with ⟨o2, f2⟩
          simp only [hr2] at h
          match o1, hr1 with
          | some (sub, depth, true), hr1 =>
            have h4 : handleSubdeck s f2 sub depth top i = .ok s2 := h
            obtain ⟨_, hn, htg⟩ := deck_matcher_fresh hr1
            exact handleSubdeck_inv h4 hinv htg hn
          | some (sub, depth, false), hr1 =>
            have h4 : (match o2 with
                | some (note, depth) => handleNote s f2 note depth i
                | none => handleText s f2 line (pyStrip line) top) = .ok s2 := h
            match o2, hr2 with
            | some (note, depth), hr2 =>
              have h5 : handleNote s f2 note depth i = .ok s2 := h4
              exact handleNote_inv h5 hinv (note_matcher_fresh hr2).2
            | none, hr2 =>
              have h5 : handleText s f2 line (pyStrip line) top = .ok s2 := h4
              exact handleText_inv h5 hst hbody hinv
          | none, hr1 =>
            have h4 : (match o2 with
                | some (note, depth) => handleNote s f2 note depth i
                | none => handleText s f2 line (pyStrip line) top) = .ok s2 := h
            match o2, hr2 with
            | some (note, depth), hr2 =>
              have h5 : handleNote s f2 note depth i = .ok s2 := h4
              exact handleNote_inv h5 hinv (note_matcher_fresh hr2).2
            | none, hr2 =>
              have h5 : handleText s f2 line (pyStrip line) top = .ok s2 := h4
              exact handleText_inv h5 hst hbody hinv
      · rw [if_neg hbody] at h
        have hs2 := (Except.ok.inj h).symm
        subst hs2
        exact hinv

/-- The whole line fold preserves the combined invariant. -/
theorem runLines_inv {i : Int} : ∀ (lines : List Str) (s s2 : St),
    runLines i lines s = .ok s2 → StInv s → StInv s2 := by
  intro lines
  induction lines with
  | nil =>
    intro s s2 h hinv
    rw [runLines_nil] at h
    have hs2 := Except.ok.inj h
    subst hs2
    exact hinv
  | cons l ls ih =>
    intro s s2 h hinv
    match hp : processLine i s l with
    | .error e =>
      rw [runLines_cons_error hp] at h
      exact Except.noConfusion h
    | .ok s1 =>
      rw [runLines_cons_ok hp rfl] at h
      exact ih s1 s2 h (processLine_inv hp hinv)

/-- The combined invariant holds at the initial parser state. -/
theorem initSt_inv (g : Nat) : StInv (initSt g) :=
  ⟨fun _ => rfl, fun d hd => absurd hd (List.not_mem_nil d), List.Pairwise.nil, rfl⟩

/-- A successful parse decomposes into a successful line fold followed by
the flush/finalize/sort epilogue. -/
theorem parse_ok_elim {lines : List Str} {i : Int} {g : Nat}
    {res : List AnkiDeck}
    (h : parse_md_content_to_anki_deck_list lines i g = .ok res) :
    ∃ s, runLines i lines (initSt g) = .ok s ∧ ¬ s.ps = PState.looking ∧
      res = sortAnkiDecks ((s.decks ++ s.stack).map finalizeDeck) := by
  unfold parse_md_content_to_anki_deck_list at h
  match hrun : runLines i lines (initSt g) with
  | .error e => rw [hrun] at h; exact Except.noConfusion h
  | .ok s =>
    rw [hrun] at h
    have h2 : (if s.ps = PState.looking
        then (Except.error ParseError.noAnkiDeckFound : Except ParseError (List AnkiDeck))
        else .ok (sortAnkiDecks ((s.decks ++ s.stack).map finalizeDeck))) = .ok res := h
    by_cases hps : s.ps = PState.looking
    · rw [if_pos hps] at h2
      exact Except.noConfusion h2
    · rw [if_neg hps] at h2
      exact ⟨s, rfl, hps, (Except.ok.inj h2).symm⟩

/-- A successful parse emits decks whose document-order stamps read
`0, 1, ..., n - 1` in output list order: the list is sorted by strictly
increasing `md_document_order` and the stamps record the deck-opening
order without gaps or duplicates. -/
theorem parse_orders_exact {lines : List Str} {i : Int} {g : Nat}
    {res : List AnkiDeck}
    (h : parse_md_content_to_anki_deck_list lines i g = .ok res) :
    res.map AnkiDeck.mdDocumentOrder = List.range res.length := by
  obtain ⟨s, hrun, hps, hres⟩ := parse_ok_elim h
  obtain ⟨_, _, _, horders⟩ := runLines_inv lines (initSt g) s hrun (initSt_inv g)
  have hmapord : ((res.map AnkiDeck.mdDocumentOrder : List Nat) : Multiset Nat) =
      Multiset.range s.counter := by
    have hperm : res.Perm ((s.decks ++ s.stack).map finalizeDeck) := by
      rw [hres]
      exact List.perm_insertionSort _ _
    rw [orders_of_perm hperm, List.map_map]
    have hco : AnkiDeck.mdDocumentOrder ∘ finalizeDeck = AnkiDeck.mdDocumentOrder :=
      funext fun d => rfl
    rw [hco]
    exact horders
  have hsorted : res.Pairwise (fun a b => a.mdDocumentOrder ≤ b.mdDocumentOrder) := by
    rw [hres]
    haveI h1 : IsTotal AnkiDeck (fun a b => a.mdDocumentOrder ≤ b.mdDocumentOrder) :=
      ⟨fun a b => Nat.le_total _ _⟩
    haveI h2 : IsTrans AnkiDeck (fun a b => a.mdDocumentOrder ≤ b.mdDocumentOrder) :=
      ⟨fun a b c hab hbc => Nat.le_trans hab hbc⟩
    exact List.sorted_insertionSort _ _
  have hordsorted : (res.map AnkiDeck.mdDocumentOrder).Pairwise
      (fun a b => a ≤ b) := by
    rw [List.pairwise_map]
    exact hsorted
  have hrangesorted : (List.range s.counter).Pairwise (fun a b => a ≤ b) :=
    List.Pairwise.imp (fun hlt => Nat.le_of_lt hlt) (List.pairwise_lt_range s.counter)
  have hperm2 : (res.map AnkiDeck.mdDocumentOrder).Perm (List.range s.counter) :=
    Multiset.coe_eq_coe.mp (by rw [hmapord]; rfl)
  have hlen : res.length = s.counter := by
    have hl := hperm2.length_eq
    simpa using hl
  rw [hlen]
  exact List.eq_of_perm_of_sorted hperm2 hordsorted hrangesorted

/-- After finalization every note's tag set is exactly its owning deck's
resolved global tag set. -/
theorem parse_note_tags {lines : List Str} {i : Int} {g : Nat}
    {res : List AnkiDeck}
    (h : parse_md_content_to_anki_deck_list lines i g = .ok res) :
    ∀ d ∈ res, ∀ n ∈ d.notes, n.tags = getUsedGlobalTags d := by
  obtain ⟨s, hrun, hall⟩ := mem_parse_output h
  obtain ⟨_, hblank, _, _⟩ := runLines_inv lines (initSt g) s hrun (initSt_inv g)
  intro d hd n hn
  obtain ⟨d0, hd0, hdeq⟩ := hall d hd
  subst hdeq
  have hn2 : n ∈ d0.notes.map (fun n0 =>
      { n0 with
        tags := n0.tags ∪ getUsedGlobalTags { d0 with description := pyStrip d0.description }
        question := pyStrip n0.question
        answer := pyStrip n0.answer }) := hn
  obtain ⟨n0, hn0, hneq⟩ := List.mem_map.mp hn2
  rw [← hneq]
  have hblank0 : n0.tags = ∅ := hblank d0 hd0 n0 hn0
  show n0.tags ∪ getUsedGlobalTags _ = getUsedGlobalTags _
  rw [hblank0, Finset.empty_union]
  rfl

end Lemmas

section C3

/-- Claim C3: a document with a root deck, one note, a subdeck with one
note, then another note back at root depth yields three emitted decks in
document order — the root with one note, the subdeck with one note, and a
second root-deck fragment with one note that carries the same name and id
as the root but an empty-note-list clone origin and a new document-order
position.  The equality below exhibits the full parser output: deck 0 and
deck 2 share name `R` and id `1`, the fragment holds exactly the third
note, and the document orders are `0`, `1`, `2`. -/
theorem note_at_shallower_depth_splits_root_deck :
    parse_md_content_to_anki_deck_list
      [strL "# R (1)", strL "## Q1 (11)", strL "A1", strL "## Subdeck: S (2)",
       strL "### Q2 (12)", strL "A2", strL "## Q3 (13)", strL "A3"] 1 100 =
    Except.ok
      [⟨strL "R", 1, strL "", [⟨strL "Q1", strL "A1", ∅, strL "11"⟩], ∅, 0⟩,
       ⟨strL "R::S", 2, strL "", [⟨strL "Q2", strL "A2", ∅, strL "12"⟩], ∅, 1⟩,
       ⟨strL "R", 1, strL "", [⟨strL "Q3", strL "A3", ∅, strL "13"⟩], ∅, 2⟩] := by
  have h1 : processLine 1 (initSt 100) (strL "# R (1)") =
      .ok ⟨1, 0, .insideDeck, [], [⟨strL "R", 1, strL "", [], ∅, 0⟩], 100⟩ := by
    decide
  have h2 : processLine 1
      ⟨1, 0, .insideDeck, [], [⟨strL "R", 1, strL "", [], ∅, 0⟩], 100⟩
      (strL "## Q1 (11)") =
      .ok ⟨1, 0, .noteQuestion, [],
        [⟨strL "R", 1, strL "", [⟨strL "Q1", strL "", ∅, strL "11"⟩], ∅, 0⟩], 100⟩ := by
    decide
  have h3 : processLine 1
      ⟨1, 0, .noteQuestion, [],
        [⟨strL "R", 1, strL "", [⟨strL "Q1", strL "", ∅, strL "11"⟩], ∅, 0⟩], 100⟩
      (strL "A1") =
      .ok ⟨1, 0, .noteQuestion, [],
        [⟨strL "R", 1, strL "", [⟨strL "Q1", strL "A1\n", ∅, strL "11"⟩], ∅, 0⟩], 100⟩ := by
    decide
  have h4 : processLine 1
      ⟨1, 0, .noteQuestion, [],
        [⟨strL "R", 1, strL "", [⟨strL "Q1", strL "A1\n", ∅, strL "11"⟩], ∅, 0⟩], 100⟩
      (strL "## Subdeck: S (2)") =
      .ok ⟨2, 0, .insideDeck, [],
        [⟨strL "R", 1, strL "", [⟨strL "Q1", strL "A1\n", ∅, strL "11"⟩], ∅, 0⟩,
         ⟨strL "R::S", 2, strL "", [], ∅, 1⟩], 100⟩ := by
    decide
  have h5 : processLine 1
      ⟨2, 0, .insideDeck, [],
        [⟨strL "R", 1, strL "", [⟨strL "Q1", strL "A1\n", ∅, strL "11"⟩], ∅, 0⟩,
         ⟨strL "R::S", 2, strL "", [], ∅, 1⟩], 100⟩
      (strL "### Q2 (12)") =
      .ok ⟨2, 0, .noteQuestion, [],
        [⟨strL "R", 1, strL "", [⟨strL "Q1", strL "A1\n", ∅, strL "11"⟩], ∅, 0⟩,
         ⟨strL "R::S", 2, strL "", [⟨strL "Q2", strL "", ∅, strL "12"⟩], ∅, 1⟩], 100⟩ := by
    decide
  have h6 : processLine 1
      ⟨2, 0, .noteQuestion, [],
        [⟨strL "R", 1, strL "", [⟨strL "Q1", strL "A1\n", ∅, strL "11"⟩], ∅, 0⟩,
         ⟨strL "R::S", 2, strL "", [⟨strL "Q2", strL "", ∅, strL "12"⟩], ∅, 1⟩], 100⟩
      (strL "A2") =
      .ok ⟨2, 0, .noteQuestion, [],
        [⟨strL "R", 1, strL "", [⟨strL "Q1", strL "A1\n", ∅, strL "11"⟩], ∅, 0⟩,
         ⟨strL "R::S", 2, strL "", [⟨strL "Q2", strL "A2\n", ∅, strL "12"⟩], ∅, 1⟩],
        100⟩ := by
    decide
  have h7 : processLine 1
      ⟨2, 0, .noteQuestion, [],
        [⟨strL "R", 1, strL "", [⟨strL "Q1", strL "A1\n", ∅, strL "11"⟩], ∅, 0⟩,
         ⟨strL "R::S", 2, strL "", [⟨strL "Q2", strL "A2\n", ∅, strL "12"⟩], ∅, 1⟩],
        100⟩
      (strL "## Q3 (13)") =
      .ok ⟨3, 0, .noteQuestion,
        [⟨strL "R::S", 2, strL "", [⟨strL "Q2", strL "A2\n", ∅, strL "12"⟩], ∅, 1⟩,
         ⟨strL "R", 1, strL "", [⟨strL "Q1", strL "A1\n", ∅, strL "11"⟩], ∅, 0⟩],
        [⟨strL "R", 1, strL "", [⟨strL "Q3", strL "", ∅, strL "13"⟩], ∅, 2⟩], 100⟩ := by
    decide
  have h8 : processLine 1
      ⟨3, 0, .noteQuestion,
        [⟨strL "R::S", 2, strL "", [⟨strL "Q2", strL "A2\n", ∅, strL "12"⟩], ∅, 1⟩,
         ⟨strL "R", 1, strL "", [⟨strL "Q1", strL "A1\n", ∅, strL "11"⟩], ∅, 0⟩],
        [⟨strL "R", 1, strL "", [⟨strL "Q3", strL "", ∅, strL "13"⟩], ∅, 2⟩], 100⟩
      (strL "A3") =
      .ok ⟨3, 0, .noteQuestion,
        [⟨strL "R::S", 2, strL "", [⟨strL "Q2", strL "A2\n", ∅, strL "12"⟩], ∅, 1⟩,
         ⟨strL "R", 1, strL "", [⟨strL "Q1", strL "A1\n", ∅, strL "11"⟩], ∅, 0⟩],
        [⟨strL "R", 1, strL "", [⟨strL "Q3", strL "A3\n", ∅, strL "13"⟩], ∅, 2⟩],
        100⟩ := by
    decide
  have hrun : runLines 1
      [strL "# R (1)", strL "## Q1 (11)", strL "A1", strL "## Subdeck: S (2)",
       strL "### Q2 (12)", strL "A2", strL "## Q3 (13)", strL "A3"] (initSt 100) =
      .ok ⟨3, 0, .noteQuestion,
        [⟨strL "R::S", 2, strL "", [⟨strL "Q2", strL "A2\n", ∅, strL "12"⟩], ∅, 1⟩,
         ⟨strL "R", 1, strL "", [⟨strL "Q1", strL "A1\n", ∅, strL "11"⟩], ∅, 0⟩],
        [⟨strL "R", 1, strL "", [⟨strL "Q3", strL "A3\n", ∅, strL "13"⟩], ∅, 2⟩],
        100⟩ :=
    runLines_cons_ok h1 (runLines_cons_ok h2 (runLines_cons_ok h3
      (runLines_cons_ok h4 (runLines_cons_ok h5 (runLines_cons_ok h6
        (runLines_cons_ok h7 (runLines_cons_ok h8 (runLines_nil 1 _))))))))
  unfold parse_md_content_to_anki_deck_list
  rw [hrun]
  decide

end C3

section C4

/-- Claim C4 (code bug): the parser is claimed to fail only with the four
declared exception kinds, and in particular no out-of-range access on the
open-deck stack should reach the caller.  But on the document
`"# A\n# Subdeck: B\n"` the subdeck transition pops the entire stack (the
new heading depth `1` minus the initial depth `1` is `0`) and then evaluates
`anki_decks_stack[-1].name` on the empty stack (`md_parser.py` line 247),
so Python raises a raw `IndexError` — modelled by the fifth error
constructor below — instead of one of the four declared exceptions. -/
theorem depth_one_subdeck_heading_raises_index_error :
    parse_md_content_to_anki_deck_list [strL "# A", strL "# Subdeck: B"] 1 100 =
    Except.error ParseError.indexError := by
  decide

end C4

section C9

/-- Claim C9 (code bug): round-tripping is claimed to be the identity, but
`md_merge_anki_decks_to_file` writes subdeck headings *without* the
`"Subdeck: "` marker (`anki_deck.py` lines 542-556 re-emit the bare `::`
name components).  Parsing the document
`"# R (1)\n## Subdeck: S (2)\n### Q (9)\nAns\n"` succeeds; serializing the
result yields `"# R (1)\n\n## S (2)\n\n### Q (9)\n\nAns\n"`, in which the
subdeck heading `## S (2)` is no longer marked as a subdeck; re-parsing
that output reads `## S (2)` as a *note* heading of deck `R` and then fails
with `AnkiNoteUnexpectedDepth` on `### Q (9)` — instead of reproducing the
original two-deck tree. -/
theorem serializer_drops_subdeck_marker_breaking_round_trip :
    parse_md_content_to_anki_deck_list
      [strL "# R (1)", strL "## Subdeck: S (2)", strL "### Q (9)", strL "Ans"] 1 100 =
      Except.ok
        [⟨strL "R", 1, strL "", [], ∅, 0⟩,
         ⟨strL "R::S", 2, strL "", [⟨strL "Q", strL "Ans", ∅, strL "9"⟩], ∅, 1⟩] ∧
    md_merge_anki_decks_to_file
        [⟨strL "R", 1, strL "", [], ∅, 0⟩,
         ⟨strL "R::S", 2, strL "", [⟨strL "Q", strL "Ans", ∅, strL "9"⟩], ∅, 1⟩] 1 =
      strL "# R (1)\n\n## S (2)\n\n### Q (9)\n\nAns\n" ∧
    parse_md_content_to_anki_deck_list
        (pySplitlines (strL "# R (1)\n\n## S (2)\n\n### Q (9)\n\nAns\n")) 1 100 =
      Except.error ParseError.ankiNoteUnexpectedDepth := by
  refine ⟨by decide, by decide, by decide⟩

end C9

section C8

/-- Claim C8 counterexample: in the document
`"# D (1)\nA\n\n\nB\n## Q (8)\nAns\n"` the two consecutive blank lines
between `A` and `B` survive into the final description as *two* blank lines
(`"A\n\n\nB"`), not as a single blank line (`"A\n\nB"`): the parser flushes
a run of `k` blank lines as `k` newline characters (`md_parser.py` line
332), so internal blank-line runs are preserved verbatim rather than
collapsed to one paragraph break. -/
theorem blank_line_run_of_two_is_not_collapsed :
    parse_md_content_to_anki_deck_list
      [strL "# D (1)", strL "A", strL "", strL "", strL "B", strL "## Q (8)",
       strL "Ans"] 1 100 =
    Except.ok
      [⟨strL "D", 1, strL "A\n\n\nB", [⟨strL "Q", strL "Ans", ∅, strL "8"⟩], ∅, 0⟩] ∧
    strL "A\n\n\nB" ≠ strL "A\n\nB" := by
  constructor
  · have h1 : processLine 1 (initSt 100) (strL "# D (1)") =
        .ok ⟨1, 0, .insideDeck, [], [⟨strL "D", 1, strL "", [], ∅, 0⟩], 100⟩ := by
      decide
    have h2 : processLine 1
        ⟨1, 0, .insideDeck, [], [⟨strL "D", 1, strL "", [], ∅, 0⟩], 100⟩
        (strL "A") =
        .ok ⟨1, 0, .insideDeck, [], [⟨strL "D", 1, strL "A\n", [], ∅, 0⟩], 100⟩ := by
      decide
    have h3 : processLine 1
        ⟨1, 0, .insideDeck, [], [⟨strL "D", 1, strL "A\n", [], ∅, 0⟩], 100⟩
        (strL "") =
        .ok ⟨1, 1, .insideDeck, [], [⟨strL "D", 1, strL "A\n", [], ∅, 0⟩], 100⟩ := by
      decide
    have h4 : processLine 1
        ⟨1, 1, .insideDeck, [], [⟨strL "D", 1, strL "A\n", [], ∅, 0⟩], 100⟩
        (strL "") =
        .ok ⟨1, 2, .insideDeck, [], [⟨strL "D", 1, strL "A\n", [], ∅, 0⟩], 100⟩ := by
      decide
    have h5 : processLine 1
        ⟨1, 2, .insideDeck, [], [⟨strL "D", 1, strL "A\n", [], ∅, 0⟩], 100⟩
        (strL "B") =
        .ok ⟨1, 0, .insideDeck, [], [⟨strL "D", 1, strL "A\n\n\nB\n", [], ∅, 0⟩],
          100⟩ := by
      decide
    have h6 : processLine 1
        ⟨1, 0, .insideDeck, [], [⟨strL "D", 1, strL "A\n\n\nB\n", [], ∅, 0⟩], 100⟩
        (strL "## Q (8)") =
        .ok ⟨1, 0, .noteQuestion, [],
          [⟨strL "D", 1, strL "A\n\n\nB\n",
            [⟨strL "Q", strL "", ∅, strL "8"⟩], ∅, 0⟩], 100⟩ := by
      decide
    have h7 : processLine 1
        ⟨1, 0, .noteQuestion, [],
          [⟨strL "D", 1, strL "A\n\n\nB\n",
            [⟨strL "Q", strL "", ∅, strL "8"⟩], ∅, 0⟩], 100⟩
        (strL "Ans") =
        .ok ⟨1, 0, .noteQuestion, [],
          [⟨strL "D", 1, strL "A\n\n\nB\n",
            [⟨strL "Q", strL "Ans\n", ∅, strL "8"⟩], ∅, 0⟩], 100⟩ := by
      decide
    have hrun : runLines 1
        [strL "# D (1)", strL "A", strL "", strL "", strL "B", strL "## Q (8)",
         strL "Ans"] (initSt 100) =
        .ok ⟨1, 0, .noteQuestion, [],
          [⟨strL "D", 1, strL "A\n\n\nB\n",
            [⟨strL "Q", strL "Ans\n", ∅, strL "8"⟩], ∅, 0⟩], 100⟩ :=
      runLines_cons_ok h1 (runLines_cons_ok h2 (runLines_cons_ok h3
        (runLines_cons_ok h4 (runLines_cons_ok h5 (runLines_cons_ok h6
          (runLines_cons_ok h7 (runLines_nil 1 _)))))))
    unfold parse_md_content_to_anki_deck_list
    rw [hrun]
    decide
  · decide

/-- Claim C8 as amended: every final question, answer and description string
is whitespace-stripped (no leading or trailing blank lines), and an internal
run of `k` blank lines is flushed as exactly `k` literal newline characters
prepended to the next non-blank line of whichever buffer is being
accumulated — the description in `INSIDE_ANKI_DECK`, the answer in
`ANKI_NOTE_ANSWER` — so blank-line runs are preserved verbatim (a single
blank line stays a single paragraph break), not collapsed to one. -/
theorem final_texts_stripped_and_blank_runs_flushed_verbatim :
    (∀ (lines : List Str) (i : Int) (g : Nat) (res : List AnkiDeck),
       parse_md_content_to_anki_deck_list lines i g = .ok res →
       ∀ d ∈ res, d.description = pyStrip d.description ∧
         ∀ n ∈ d.notes, n.question = pyStrip n.question ∧
           n.answer = pyStrip n.answer) ∧
    (∀ (i : Int) (s : St) (line : Str) (top : AnkiDeck),
       s.ps = PState.insideDeck → s.stack.getLast? = some top →
       pyStrip line ≠ [] → matchDeckHeadingLine line = none →
       matchNoteHeadingLine line = none →
       processLine i s line = .ok { s with
         emptyLines := 0
         stack := s.stack.dropLast ++
           [{ top with description := top.description ++
                List.replicate s.emptyLines '\n' ++ line ++ ['\n'] }] }) ∧
    (∀ (i : Int) (s : St) (line : Str) (top : AnkiDeck) (note : AnkiNote),
       s.ps = PState.noteAnswer → s.stack.getLast? = some top →
       top.notes.getLast? = some note →
       pyStrip line ≠ [] → matchDeckHeadingLine line = none →
       matchNoteHeadingLine line = none →
       processLine i s line = .ok { s with
         emptyLines := 0
         stack := s.stack.dropLast ++
           [{ top with notes := top.notes.dropLast ++
                [{ note with answer := note.answer ++
                     List.replicate s.emptyLines '\n' ++ line ++ ['\n'] }] }] }) := by
  refine ⟨?_, ?_, ?_⟩
  · intro lines i g res h d hd
    obtain ⟨s, _, hmem⟩ := mem_parse_output h
    obtain ⟨d0, _, rfl⟩ := hmem d hd
    refine ⟨by simp [finalizeDeck, pyStrip_idem], ?_⟩
    intro n hn
    simp only [finalizeDeck, List.mem_map] at hn
    obtain ⟨m, _, rfl⟩ := hn
    exact ⟨by simp [pyStrip_idem], by simp [pyStrip_idem]⟩
  · intro i s line top hps htop hstrip hmd hmn
    unfold processLine
    rw [if_neg hstrip, if_neg (by rw [hps]; intro hc; exact PState.noConfusion hc),
      if_pos (Or.inl hps), htop]
    simp only [parse_possible_anki_deck_heading, parse_possible_anki_note_heading,
      hmd, hmn]
    unfold handleText
    rw [if_pos hps]
  · intro i s line top note hps htop hnote hstrip hmd hmn
    unfold processLine
    rw [if_neg hstrip, if_neg (by rw [hps]; intro hc; exact PState.noConfusion hc),
      if_pos (Or.inr (Or.inr hps)), htop]
    simp only [parse_possible_anki_deck_heading, parse_possible_anki_note_heading,
      hmd, hmn]
    unfold handleText
    rw [if_neg (by rw [hps]; intro hc; exact PState.noConfusion hc),
      if_neg (by rw [hps]; intro hc; exact PState.noConfusion hc.1),
      if_pos (Or.inr hps), hnote]

/-- Witness for the amended claim C8, instantiating all three parts: the
one-deck document `"# W (7)\n## Q (q)\nAns\n"` has a stripped question and
answer, and concrete description and answer accumulation steps flush two
pending blank lines as two newline characters. -/
theorem final_texts_stripped_and_blank_runs_flushed_verbatim_witness :
    ((⟨strL "Q", strL "Ans", ∅, strL "q"⟩ : AnkiNote).question =
       pyStrip (⟨strL "Q", strL "Ans", ∅, strL "q"⟩ : AnkiNote).question ∧
     (⟨strL "Q", strL "Ans", ∅, strL "q"⟩ : AnkiNote).answer =
       pyStrip (⟨strL "Q", strL "Ans", ∅, strL "q"⟩ : AnkiNote).answer) ∧
    processLine 1 ⟨1, 2, .insideDeck, [], [⟨strL "W", 7, strL "", [], ∅, 0⟩], 0⟩
        (strL "text") =
      .ok ⟨1, 0, .insideDeck, [], [⟨strL "W", 7, strL "\n\ntext\n", [], ∅, 0⟩], 0⟩ ∧
    processLine 1 ⟨1, 2, .noteAnswer, [],
        [⟨strL "W", 7, strL "", [⟨strL "Q", strL "a\n", ∅, strL "q"⟩], ∅, 0⟩], 0⟩
        (strL "text") =
      .ok ⟨1, 0, .noteAnswer, [],
        [⟨strL "W", 7, strL "", [⟨strL "Q", strL "a\n\n\ntext\n", ∅, strL "q"⟩],
          ∅, 0⟩], 0⟩ := by
  refine ⟨?_, ?_, ?_⟩
  · exact (final_texts_stripped_and_blank_runs_flushed_verbatim.1
      [strL "# W (7)", strL "## Q (q)", strL "Ans"] 1 0
      [⟨strL "W", 7, strL "", [⟨strL "Q", strL "Ans", ∅, strL "q"⟩], ∅, 0⟩]
      (by decide)
      ⟨strL "W", 7, strL "", [⟨strL "Q", strL "Ans", ∅, strL "q"⟩], ∅, 0⟩
      (by decide)).2 ⟨strL "Q", strL "Ans", ∅, strL "q"⟩ (by decide)
  · exact final_texts_stripped_and_blank_runs_flushed_verbatim.2.1 1
      ⟨1, 2, .insideDeck, [], [⟨strL "W", 7, strL "", [], ∅, 0⟩], 0⟩
      (strL "text") ⟨strL "W", 7, strL "", [], ∅, 0⟩ rfl (by decide) (by decide)
      (by decide) (by decide)
  · exact final_texts_stripped_and_blank_runs_flushed_verbatim.2.2 1
      ⟨1, 2, .noteAnswer, [],
        [⟨strL "W", 7, strL "", [⟨strL "Q", strL "a\n", ∅, strL "q"⟩], ∅, 0⟩], 0⟩
      (strL "text") ⟨strL "W", 7, strL "", [⟨strL "Q", strL "a\n", ∅, strL "q"⟩], ∅, 0⟩
      ⟨strL "Q", strL "a\n", ∅, strL "q"⟩ rfl (by decide) (by decide) (by decide)
      (by decide) (by decide)

end C8

section C7

/-- Claim C7: while a note's question is being accumulated
(`ANKI_NOTE_QUESTION`), a line whose stripped content equals the separator
token `---` sets the note's question to the right-stripped question joined
by one blank line to the left-stripped accumulated answer, clears the answer
buffer and moves to `ANKI_NOTE_ANSWER`; and once in `ANKI_NOTE_ANSWER`, any
further separator line is appended to the answer as literal content (with
any pending blank lines flushed first) and never fails the parse.  Such a
line can never match a heading (it does not start with `#`), so the
separator branch is always the one taken. -/
theorem question_answer_separator_merges_then_becomes_literal :
    (∀ (i : Int) (s : St) (line : Str) (top : AnkiDeck) (note : AnkiNote),
       s.ps = PState.noteQuestion → s.stack.getLast? = some top →
       top.notes.getLast? = some note →
       pyStrip line = qaSeparatorToken →
       processLine i s line = .ok { s with
         ps := PState.noteAnswer
         stack := s.stack.dropLast ++
           [{ top with notes := top.notes.dropLast ++
                [{ note with
                   question := pyRstrip note.question ++
                     '\n' :: '\n' :: pyLstrip note.answer
                   answer := [] }] }] }) ∧
    (∀ (i : Int) (s : St) (line : Str) (top : AnkiDeck) (note : AnkiNote),
       s.ps = PState.noteAnswer → s.stack.getLast? = some top →
       top.notes.getLast? = some note →
       pyStrip line = qaSeparatorToken →
       processLine i s line = .ok { s with
         emptyLines := 0
         stack := s.stack.dropLast ++
           [{ top with notes := top.notes.dropLast ++
                [{ note with answer := note.answer ++
                     List.replicate s.emptyLines '\n' ++ line ++ ['\n'] }] }] }) := by
  constructor
  · intro i s line top note hps htop hnote hsep
    have hhead := head_ne_hash_of_strip_sep hsep
    have hmd := matchDeckHeadingLine_eq_none hhead
    have hmn := matchNoteHeadingLine_eq_none hhead
    unfold processLine
    rw [if_neg (by rw [hsep]; decide),
      if_neg (by rw [hps]; intro hc; exact PState.noConfusion hc),
      if_pos (Or.inr (Or.inl hps)), htop]
    simp only [parse_possible_anki_deck_heading, parse_possible_anki_note_heading,
      hmd, hmn]
    unfold handleText
    rw [if_neg (by rw [hps]; intro hc; exact PState.noConfusion hc),
      if_pos ⟨hps, hsep⟩, hnote]
  · intro i s line top note hps htop hnote hsep
    have hhead := head_ne_hash_of_strip_sep hsep
    have hmd := matchDeckHeadingLine_eq_none hhead
    have hmn := matchNoteHeadingLine_eq_none hhead
    unfold processLine
    rw [if_neg (by rw [hsep]; decide),
      if_neg (by rw [hps]; intro hc; exact PState.noConfusion hc),
      if_pos (Or.inr (Or.inr hps)), htop]
    simp only [parse_possible_anki_deck_heading, parse_possible_anki_note_heading,
      hmd, hmn]
    unfold handleText
    rw [if_neg (by rw [hps]; intro hc; exact PState.noConfusion hc),
      if_neg (by rw [hps]; intro hc; exact PState.noConfusion hc.1),
      if_pos (Or.inr hps), hnote]

/-- Witness for claim C7: concrete separator steps.  In `ANKI_NOTE_QUESTION`
with accumulated answer `"draft\n"`, the line `" --- "` (which strips to the
separator) merges the answer into the question as `"Q\n\ndraft\n"` and
clears the answer; in `ANKI_NOTE_ANSWER` the same line is appended to the
answer verbatim. -/
theorem question_answer_separator_merges_then_becomes_literal_witness :
    processLine 1 ⟨1, 0, .noteQuestion, [],
        [⟨strL "W", 7, strL "", [⟨strL "Q", strL "draft\n", ∅, strL "q"⟩], ∅, 0⟩], 0⟩
        (strL " --- ") =
      .ok ⟨1, 0, .noteAnswer, [],
        [⟨strL "W", 7, strL "", [⟨strL "Q\n\ndraft\n", strL "", ∅, strL "q"⟩],
          ∅, 0⟩], 0⟩ ∧
    processLine 1 ⟨1, 0, .noteAnswer, [],
        [⟨strL "W", 7, strL "", [⟨strL "Q", strL "a\n", ∅, strL "q"⟩], ∅, 0⟩], 0⟩
        (strL " --- ") =
      .ok ⟨1, 0, .noteAnswer, [],
        [⟨strL "W", 7, strL "", [⟨strL "Q", strL "a\n --- \n", ∅, strL "q"⟩],
          ∅, 0⟩], 0⟩ := by
  constructor
  · exact question_answer_separator_merges_then_becomes_literal.1 1
      ⟨1, 0, .noteQuestion, [],
        [⟨strL "W", 7, strL "", [⟨strL "Q", strL "draft\n", ∅, strL "q"⟩], ∅, 0⟩], 0⟩
      (strL " --- ") ⟨strL "W", 7, strL "", [⟨strL "Q", strL "draft\n", ∅, strL "q"⟩], ∅, 0⟩
      ⟨strL "Q", strL "draft\n", ∅, strL "q"⟩ rfl (by decide) (by decide) (by decide)
  · exact question_answer_separator_merges_then_becomes_literal.2 1
      ⟨1, 0, .noteAnswer, [],
        [⟨strL "W", 7, strL "", [⟨strL "Q", strL "a\n", ∅, strL "q"⟩], ∅, 0⟩], 0⟩
      (strL " --- ") ⟨strL "W", 7, strL "", [⟨strL "Q", strL "a\n", ∅, strL "q"⟩], ∅, 0⟩
      ⟨strL "Q", strL "a\n", ∅, strL "q"⟩ rfl (by decide) (by decide) (by decide)

end C7

section C10

/-- Claim C10: whenever a line matches the deck-heading pattern (with
heading text `nt`) and a non-empty parent deck name `p` is supplied, the
returned deck's name is `p ++ "::" ++ base`, where `base` is the heading
text with the reserved subdeck token stripped exactly when it is present —
the parent name is prepended *unconditionally*, whether or not the heading
carries the subdeck token (which only controls the stripping and the
returned subdeck flag).  The second conjunct shows `base` is precisely the
name the matcher returns when no parent is supplied. -/
theorem parent_name_prepended_even_without_subdeck_token
    (line p : Str) (g : Nat) (dep : Nat) (nt : Str) (ido : Option Nat)
    (hm : matchDeckHeadingLine line = some (dep, nt, ido)) (_hp : p ≠ []) :
    (parse_possible_anki_deck_heading line (some p) g).1.map
        (fun r => (r.1.name, r.2.1, r.2.2)) =
      some (p ++ ankiSubdeckSeparator ++
        (if startsWithList subdeckHeadingToken nt then
          nt.drop subdeckHeadingToken.length else nt), dep,
        startsWithList subdeckHeadingToken nt) ∧
    (parse_possible_anki_deck_heading line none g).1.map (fun r => r.1.name) =
      some (if startsWithList subdeckHeadingToken nt then
        nt.drop subdeckHeadingToken.length else nt) := by
  unfold parse_possible_anki_deck_heading
  rw [hm]
  cases ido <;> simp

/-- Witness for claim C10: the non-subdeck heading `"## Heading"` with
parent `"parent deck"` yields the deck name `"parent deck::Heading"` and a
`false` subdeck flag (matching the repo's own test data in
`tests/tests_md_parser.py`). -/
theorem parent_name_prepended_even_without_subdeck_token_witness :
    (parse_possible_anki_deck_heading (strL "## Heading")
        (some (strL "parent deck")) 5).1.map
        (fun r => (r.1.name, r.2.1, r.2.2)) =
      some (strL "parent deck" ++ ankiSubdeckSeparator ++
        (if startsWithList subdeckHeadingToken (strL "Heading") then
          (strL "Heading").drop subdeckHeadingToken.length else strL "Heading"), 2,
        startsWithList subdeckHeadingToken (strL "Heading")) :=
  (parent_name_prepended_even_without_subdeck_token (strL "## Heading")
    (strL "parent deck") 5 2 (strL "Heading") none (by decide) (by decide)).1

end C10

section C6

/-- Claim C6 counterexample: the heading matchers are *not* deterministic in
their returned identifiers.  A heading without an explicit id gets a freshly
generated one (`create_unique_id_int` / `create_unique_id`, which consume
the hidden random-generator state, modelled here as the threaded counter):
two invocations on the same line `"# Heading"` (resp. `"## Q"`) under
different generator states return decks (resp. notes) with different ids,
so "two invocations on the same input yield equal objects with equal
identifiers" fails. -/
theorem matcher_ids_differ_across_invocations :
    (parse_possible_anki_deck_heading (strL "# Heading") none 0).1 ≠
      (parse_possible_anki_deck_heading (strL "# Heading") none 1).1 ∧
    (parse_possible_anki_note_heading (strL "## Q") 0).1 ≠
      (parse_possible_anki_note_heading (strL "## Q") 1).1 := by
  exact ⟨by decide, by decide⟩

/-- Claim C6 as amended: the matchers are total functions (they never
raise; a non-matching line yields the `none` result with the generator
untouched) and are deterministic in everything except the generated
identifier — same line (and parent name, for decks) always yields the same
match success, name, depth and subdeck flag, and when the heading carries an
*explicit* id the returned object is fully identical across invocations. -/
theorem matchers_deterministic_up_to_generated_ids :
    (∀ (line : Str) (parent : Option Str) (g1 g2 : Nat),
       (parse_possible_anki_deck_heading line parent g1).1.map
           (fun r => (r.1.name, r.1.description, r.1.notes, r.1.tags, r.2.1, r.2.2)) =
         (parse_possible_anki_deck_heading line parent g2).1.map
           (fun r => (r.1.name, r.1.description, r.1.notes, r.1.tags, r.2.1, r.2.2)) ∧
       (∀ dep nt i, matchDeckHeadingLine line = some (dep, nt, some i) →
          (parse_possible_anki_deck_heading line parent g1).1 =
            (parse_possible_anki_deck_heading line parent g2).1) ∧
       (matchDeckHeadingLine line = none →
          parse_possible_anki_deck_heading line parent g1 = (none, g1))) ∧
    (∀ (line : Str) (g1 g2 : Nat),
       (parse_possible_anki_note_heading line g1).1.map
           (fun r => (r.1.question, r.1.answer, r.1.tags, r.2)) =
         (parse_possible_anki_note_heading line g2).1.map
           (fun r => (r.1.question, r.1.answer, r.1.tags, r.2)) ∧
       (∀ dep nt i, matchNoteHeadingLine line = some (dep, nt, some i) →
          (parse_possible_anki_note_heading line g1).1 =
            (parse_possible_anki_note_heading line g2).1) ∧
       (matchNoteHeadingLine line = none →
          parse_possible_anki_note_heading line g1 = (none, g1))) := by
  constructor
  · intro line parent g1 g2
    refine ⟨?_, ?_, ?_⟩
    · unfold parse_possible_anki_deck_heading
      cases hm : matchDeckHeadingLine line with
      | none => simp
      | some r =>
        obtain ⟨dep, nt, ido⟩ := r
        cases ido <;> simp
    · intro dep nt i hm
      unfold parse_possible_anki_deck_heading
      rw [hm]
    · intro hm
      unfold parse_possible_anki_deck_heading
      rw [hm]
  · intro line g1 g2
    refine ⟨?_, ?_, ?_⟩
    · unfold parse_possible_anki_note_heading
      cases hm : matchNoteHeadingLine line with
      | none => simp
      | some r =>
        obtain ⟨dep, nt, ido⟩ := r
        cases ido <;> simp
    · intro dep nt i hm
      unfold parse_possible_anki_note_heading
      rw [hm]
    · intro hm
      unfold parse_possible_anki_note_heading
      rw [hm]

/-- Witness for the amended claim C6: with an explicit id, `"# Heading
(12)"` gives the identical match under two different generator states, and
the non-heading line `"just text"` gives `none` with the generator state
returned unchanged. -/
theorem matchers_deterministic_up_to_generated_ids_witness :
    (parse_possible_anki_deck_heading (strL "# Heading (12)") none 3).1 =
      (parse_possible_anki_deck_heading (strL "# Heading (12)") none 4).1 ∧
    parse_possible_anki_deck_heading (strL "just text") none 3 = (none, 3) ∧
    (parse_possible_anki_note_heading (strL "## Q (abc)") 3).1 =
      (parse_possible_anki_note_heading (strL "## Q (abc)") 4).1 := by
  refine ⟨?_, ?_, ?_⟩
  · exact (matchers_deterministic_up_to_generated_ids.1 (strL "# Heading (12)")
      none 3 4).2.1 1 (strL "Heading") 12 (by decide)
  · exact (matchers_deterministic_up_to_generated_ids.1 (strL "just text")
      none 3 3).2.2 (by decide)
  · exact (matchers_deterministic_up_to_generated_ids.2 (strL "## Q (abc)")
      3 4).2.1 2 (strL "Q") (strL "abc") (by decide)

end C6

section C5

/-- Claim C5 counterexample: on `"# A (1)\n## Subdeck: B (2)\n"` the subdeck
transition performs no pops, leaving the open-deck stack at length 1, and
the new heading's depth is `2`.  The claim's formula `len(stack) -
initialDepth + 1 = 1 - 1 + 1 = 1` differs from `2`, so the claim's "if and
only if" demands an "unexpected subdeck depth" error here — but the parse
succeeds and pushes the subdeck (the code accepts exactly depth
`len(stack) + initialDepth = 2`). -/
theorem accepted_subdeck_depth_refutes_claimed_formula :
    parse_md_content_to_anki_deck_list
      [strL "# A (1)", strL "## Subdeck: B (2)"] 1 100 =
      Except.ok [⟨strL "A", 1, strL "", [], ∅, 0⟩,
        ⟨strL "A::B", 2, strL "", [], ∅, 1⟩] ∧
    ¬((2 : Int) = 1 - 1 + 1) := by
  exact ⟨by decide, by decide⟩

/-- Claim C5 as amended: during a subdeck transition (a body-state line that
the deck matcher flags as a subdeck), the parser raises the "unexpected
subdeck depth" error if and only if the *pre-pop* stack is strictly shorter
than `depth - initialDepth` — equivalently, pops never cause this error,
and after any pops the stack length must equal `depth - initialDepth`
(i.e. the accepted depth is `len(stack) + initialDepth`, not
`len(stack) - initialDepth + 1`).  When the stack is longer and
`depth - initialDepth` is not positive, the parser instead dies with the
`IndexError` of claim C4, which is also not this error. -/
theorem subdeck_depth_error_iff_stack_shorter_than_target (i : Int) (s : St)
    (line : Str) (top sub : AnkiDeck) (depth : Nat) (f1 : Nat)
    (hps : s.ps = PState.insideDeck ∨ s.ps = PState.noteQuestion ∨
      s.ps = PState.noteAnswer)
    (htop : s.stack.getLast? = some top)
    (hm : parse_possible_anki_deck_heading line (some top.name) s.fresh =
      (some (sub, depth, true), f1))
    (hstrip : pyStrip line ≠ []) :
    processLine i s line = .error .ankiSubdeckUnexpectedDepth ↔
      (s.stack.length : Int) < (depth : Int) - i := by
  have hlook : ¬ s.ps = PState.looking := by
    rcases hps with h | h | h <;> rw [h] <;> intro hc <;> exact PState.noConfusion hc
  unfold processLine
  rw [if_neg hstrip, if_neg hlook, if_pos hps, htop]
  simp only [hm]
  unfold handleSubdeck
  by_cases hgt : (s.stack.length : Int) > (depth : Int) - i
  · rw [if_pos hgt]
    by_cases ht0 : 0 ≤ (depth : Int) - i
    · obtain ⟨q, r, hpop, hqr, hle, hgtlen⟩ :=
        popDecksAbove_ok s.decks s.stack ((depth : Int) - i) ht0
      rw [hpop]
      have hrlen : (r.length : Int) = (depth : Int) - i := hgtlen hgt
      by_cases ht1 : (depth : Int) - i = 0
      · have hr : r = [] := by
          have : r.length = 0 := by omega
          exact List.length_eq_zero.mp this
        subst hr
        exact iff_of_false (by simp) (by omega)
      · have hr : r ≠ [] := by
          intro hc
          subst hc
          simp at hrlen
          omega
        obtain ⟨y, ys, hys⟩ := List.exists_cons_of_ne_nil hr
        subst hys
        rw [show (y :: ys).reverse = ys.reverse ++ [y] by simp]
        simp only [List.getLast?_concat]
        unfold pushSubdeck
        rw [if_neg (by
          simp only [List.length_append, List.length_reverse, List.length_cons,
            List.length_nil] at hrlen ⊢
          omega)]
        simp only [List.getLast?_concat]
        exact iff_of_false (by simp) (by omega)
    · rw [popDecksAbove_neg s.decks s.stack _ (by omega)]
      exact iff_of_false (by simp) (by omega)
  · rw [if_neg hgt]
    unfold pushSubdeck
    by_cases heq : (s.stack.length : Int) = (depth : Int) - i
    · rw [if_neg (by omega), htop]
      exact iff_of_false (by simp) (by omega)
    · rw [if_pos (by omega)]
      exact iff_of_true rfl (by omega)

/-- Witness for the amended claim C5: with one open deck and the subdeck
heading `"## Subdeck: B (2)"` (depth 2, initial depth 1), the error
condition is `1 < 2 - 1`, which is false — and indeed the step succeeds. -/
theorem subdeck_depth_error_iff_stack_shorter_than_target_witness :
    ¬(processLine 1
        ⟨1, 0, .insideDeck, [], [⟨strL "A", 1, strL "", [], ∅, 0⟩], 100⟩
        (strL "## Subdeck: B (2)") =
      .error .ankiSubdeckUnexpectedDepth) :=
  (not_iff_not.mpr (subdeck_depth_error_iff_stack_shorter_than_target 1
    ⟨1, 0, .insideDeck, [], [⟨strL "A", 1, strL "", [], ∅, 0⟩], 100⟩
    (strL "## Subdeck: B (2)") ⟨strL "A", 1, strL "", [], ∅, 0⟩
    ⟨strL "A::B", 2, strL "", [], ∅, 0⟩ 2 100
    (Or.inl rfl) (by decide) (by decide) (by decide))).mpr (by decide)

end C5

section C2

set_option maxHeartbeats 2000000 in
/-- Claim C2 counterexample: the emitted deck list does not "exactly match
the order in which deck headings first appear in the source text".  The
document below contains exactly two deck-creating headings (`# R (5)` and
`## Subdeck: S (6)`, counted by `countDeckHeadingLines`), yet the parser
emits three decks: the clone step of the note transition re-emits deck `R`
(same name, same id `5`) at a third document-order position without any
third heading in the source, so no pairing of output positions with source
headings can be order-exact.  The strictly-increasing part of the claim
does hold and is proved as the amended theorem. -/
theorem clone_decks_break_heading_order_correspondence :
    parse_md_content_to_anki_deck_list
      [strL "# R (5)", strL "## Q1 (21)", strL "## Subdeck: S (6)",
       strL "### Q2 (22)", strL "## Q3 (23)"] 1 100 =
      Except.ok
        [⟨strL "R", 5, strL "", [⟨strL "Q1", strL "", ∅, strL "21"⟩], ∅, 0⟩,
         ⟨strL "R::S", 6, strL "", [⟨strL "Q2", strL "", ∅, strL "22"⟩], ∅, 1⟩,
         ⟨strL "R", 5, strL "", [⟨strL "Q3", strL "", ∅, strL "23"⟩], ∅, 2⟩] ∧
    countDeckHeadingLines
      [strL "# R (5)", strL "## Q1 (21)", strL "## Subdeck: S (6)",
       strL "### Q2 (22)", strL "## Q3 (23)"] 1 = 2 := by
  constructor
  · decide
  · decide

/-- Claim C2 (amended): for every input document the deck list returned by
`parse_md_content_to_anki_deck_list` is sorted by strictly increasing
`md_document_order`, and the stamps are exactly `0, 1, ..., n - 1` — the
order in which the emitted decks were opened in the source text (each deck
heading opens one deck, and the clone step of the note transition opens a
fresh fragment), with no gaps and no duplicates. -/
theorem emitted_deck_orders_are_exactly_the_opening_order
    {lines : List Str} {i : Int} {g : Nat} {res : List AnkiDeck}
    (h : parse_md_content_to_anki_deck_list lines i g = .ok res) :
    res.map AnkiDeck.mdDocumentOrder = List.range res.length :=
  parse_orders_exact h

/-- Witness for the amended C2 theorem on a concrete three-line document. -/
theorem emitted_deck_orders_are_exactly_the_opening_order_witness :
    parse_md_content_to_anki_deck_list
      [strL "# A (1)", strL "## Q (q)", strL "Ans"] 1 50 =
      Except.ok [⟨strL "A", 1, strL "", [⟨strL "Q", strL "Ans", ∅, strL "q"⟩], ∅, 0⟩] ∧
    [(⟨strL "A", 1, strL "", [⟨strL "Q", strL "Ans", ∅, strL "q"⟩], ∅, 0⟩ :
        AnkiDeck)].map AnkiDeck.mdDocumentOrder =
      List.range [(⟨strL "A", 1, strL "", [⟨strL "Q", strL "Ans", ∅, strL "q"⟩],
        ∅, 0⟩ : AnkiDeck)].length := by
  have hp : parse_md_content_to_anki_deck_list
      [strL "# A (1)", strL "## Q (q)", strL "Ans"] 1 50 =
      Except.ok [⟨strL "A", 1, strL "", [⟨strL "Q", strL "Ans", ∅, strL "q"⟩], ∅, 0⟩] := by
    decide
  exact ⟨hp, emitted_deck_orders_are_exactly_the_opening_order hp⟩

end C2

section C1

/-- Claim C1: after `parse_md_content_to_anki_deck_list` finalizes, every
note's tag set equals its owning deck's fully resolved global tag set
`getUsedGlobalTags` — the union of the note's own declared tags (always
empty before finalization) with the deck's description tags and stored
tags; since every subdeck is pushed carrying its parent's resolved tags
unioned in, the open-deck stack of every successful run is a `TagChain`
(each deck's stored tags contain every lower — ancestor — deck's resolved
tag set, transitively), and in particular `note.tags ⊇ owning_deck.tags`. -/
theorem note_tags_are_resolved_ancestor_union
    {lines : List Str} {i : Int} {g : Nat} {res : List AnkiDeck}
    (h : parse_md_content_to_anki_deck_list lines i g = .ok res) :
    (∀ d ∈ res, ∀ n ∈ d.notes, n.tags = getUsedGlobalTags d ∧ d.tags ⊆ n.tags) ∧
    (∀ s, runLines i lines (initSt g) = .ok s → TagChain s.stack) := by
  refine ⟨?_, ?_⟩
  · intro d hd n hn
    have h1 := parse_note_tags h d hd n hn
    exact ⟨h1, h1 ▸ tags_subset_getUsed d⟩
  · intro s hs
    exact (runLines_inv lines (initSt g) s hs (initSt_inv g)).2.2.1

/-- Witness for the C1 theorem on a concrete three-line document, with the
deck, note and final loop state fully instantiated. -/
theorem note_tags_are_resolved_ancestor_union_witness :
    parse_md_content_to_anki_deck_list
      [strL "# B (2)", strL "## W (w)", strL "Hello"] 1 60 =
      Except.ok [⟨strL "B", 2, strL "", [⟨strL "W", strL "Hello", ∅, strL "w"⟩], ∅, 0⟩] ∧
    (⟨strL "W", strL "Hello", ∅, strL "w"⟩ : AnkiNote).tags =
      getUsedGlobalTags
        ⟨strL "B", 2, strL "", [⟨strL "W", strL "Hello", ∅, strL "w"⟩], ∅, 0⟩ ∧
    (⟨strL "B", 2, strL "", [⟨strL "W", strL "Hello", ∅, strL "w"⟩], ∅,
        0⟩ : AnkiDeck).tags ⊆
      (⟨strL "W", strL "Hello", ∅, strL "w"⟩ : AnkiNote).tags ∧
    runLines 1 [strL "# B (2)", strL "## W (w)", strL "Hello"] (initSt 60) =
      Except.ok ⟨1, 0, PState.noteQuestion, [],
        [⟨strL "B", 2, strL "", [⟨strL "W", strL "Hello\n", ∅, strL "w"⟩], ∅, 0⟩], 61⟩ ∧
    TagChain (⟨1, 0, PState.noteQuestion, [],
      [⟨strL "B", 2, strL "", [⟨strL "W", strL "Hello\n", ∅, strL "w"⟩], ∅, 0⟩],
      61⟩ : St).stack := by
  have hp : parse_md_content_to_anki_deck_list
      [strL "# B (2)", strL "## W (w)", strL "Hello"] 1 60 =
      Except.ok [⟨strL "B", 2, strL "", [⟨strL "W", strL "Hello", ∅, strL "w"⟩], ∅, 0⟩] := by
    decide
  have hr : runLines 1 [strL "# B (2)", strL "## W (w)", strL "Hello"] (initSt 60) =
      Except.ok ⟨1, 0, PState.noteQuestion, [],
        [⟨strL "B", 2, strL "", [⟨strL "W", strL "Hello\n", ∅, strL "w"⟩], ∅, 0⟩], 61⟩ := by
    decide
  obtain ⟨ha, hb⟩ := note_tags_are_resolved_ancestor_union hp
  have hn := ha _ (List.mem_singleton_self _) _ (List.mem_singleton_self _)
  exact ⟨hp, hn.1, hn.2, hr, hb _ hr⟩

end C1

end Md2Anki
